import Mathlib

/-!
Multimodal search glue (load / query_image / query_text).

A shallow embedding of the three Go programs of the repository
(`load/main.go`, `query_image/main.go`, `query_text/main.go`) and proofs of
properties of their functions `CreateEmbedding`, `imageToLangchainDoc`,
`imageToBase64String`, `load` and the two `main` loops.

External collaborators (file system, HTTP, the Bedrock runtime, the pgvector
store) are an explicit environment record `Env`; every call to one of them is
recorded in the trace of the run.  `log.Fatal` and run-time panics are the
outcomes `Outcome.fatal` and `Outcome.panicked`.
-/

namespace MultimodalSearch

/-! ## JSONText and `base64.StdEncoding` -/

/-- A Go `byte`. -/
abbrev Byte := Fin 256

/-- The alphabet of `base64.StdEncoding`. -/
def encodeStd : List Char :=
  "ABCDEFGHIJKLMNOPQRSTUVWXYZabcdefghijklmnopqrstuvwxyz0123456789+/".toList

/-- The table lookup `enc.encode[i]` for a six-bit index. -/
def encodeChar (i : Nat) : Char := encodeStd.getD i 'A'

/-- The padding character `base64.StdPadding`. -/
def padChar : Char := '='

/-- The body of `(*Encoding).Encode`: full three-byte groups give four
    characters each, a remainder of one or two bytes is padded with `=`. -/
def encodeBytes : List Byte → List Char
  | a :: b :: c :: rest =>
      let val := a.val <<< 16 ||| b.val <<< 8 ||| c.val
      encodeChar (val >>> 18 &&& 0x3F) :: encodeChar (val >>> 12 &&& 0x3F) ::
        encodeChar (val >>> 6 &&& 0x3F) :: encodeChar (val &&& 0x3F) :: encodeBytes rest
  | [a, b] =>
      let val := a.val <<< 16 ||| b.val <<< 8
      [encodeChar (val >>> 18 &&& 0x3F), encodeChar (val >>> 12 &&& 0x3F),
        encodeChar (val >>> 6 &&& 0x3F), padChar]
  | [a] =>
      let val := a.val <<< 16
      [encodeChar (val >>> 18 &&& 0x3F), encodeChar (val >>> 12 &&& 0x3F), padChar, padChar]
  | [] => []

/-- The call `base64.StdEncoding.EncodeToString(src)`. -/
def EncodeToString (src : List Byte) : String := String.mk (encodeBytes src)

/-- The inverse table `enc.decodeMap`: the six-bit value of an alphabet
    character, `none` for every other character. -/
def decodeChar (c : Char) : Option Nat :=
  let i := encodeStd.indexOf c
  if i < 64 then some i else none

/-- The low eight bits of a number, as a byte. -/
def toByte (n : Nat) : Byte := ⟨n % 256, Nat.mod_lt _ (by decide)⟩

/-- Decoding of padded standard base64 text without line breaks, four
    characters at a time; padding is accepted only in the last group and
    `none` is `CorruptInputError`. -/
def decodeChars : List Char → Option (List Byte)
  | [] => some []
  | c1 :: c2 :: c3 :: c4 :: rest =>
      match decodeChar c1, decodeChar c2 with
      | some v1, some v2 =>
          if c3 = padChar then
            if c4 = padChar ∧ rest = [] then
              some [toByte ((v1 <<< 18 ||| v2 <<< 12) >>> 16)]
            else none
          else
            match decodeChar c3 with
            | none => none
            | some v3 =>
                if c4 = padChar then
                  if rest = [] then
                    let val := v1 <<< 18 ||| v2 <<< 12 ||| v3 <<< 6
                    some [toByte (val >>> 16), toByte (val >>> 8)]
                  else none
                else
                  match decodeChar c4 with
                  | none => none
                  | some v4 =>
                      let val := v1 <<< 18 ||| v2 <<< 12 ||| v3 <<< 6 ||| v4
                      (decodeChars rest).map fun tail =>
                        toByte (val >>> 16) :: toByte (val >>> 8) :: toByte val :: tail
      | _, _ => none
  | _ => none

/-- The call `base64.StdEncoding.DecodeString(s)` on text without line breaks. -/
def DecodeString (s : String) : Option (List Byte) := decodeChars s.toList

/-! ## `strings.Contains` and `strings.TrimSpace` -/

/-- Whether `substr` occurs in `s` as a contiguous run, scanning `s` from the left. -/
def containsChars : List Char → List Char → Bool
  | [], substr => substr.isEmpty
  | c :: cs, substr => substr.isPrefixOf (c :: cs) || containsChars cs substr

/-- The call `strings.Contains(s, substr)`. -/
def Contains (s substr : String) : Bool := containsChars s.toList substr.toList

/-- The white-space characters of `unicode.IsSpace`. -/
def isSpace (c : Char) : Bool :=
  let n := c.toNat
  (9 ≤ n && n ≤ 13) || n == 0x20 || n == 0x85 || n == 0xA0 || n == 0x1680 ||
    (0x2000 ≤ n && n ≤ 0x200A) || n == 0x2028 || n == 0x2029 || n == 0x202F ||
    n == 0x205F || n == 0x3000

/-- The call `strings.TrimSpace(s)`: leading and trailing white space removed. -/
def TrimSpace (s : String) : String :=
  String.mk ((s.toList.dropWhile isSpace).reverse.dropWhile isSpace).reverse

/-! ## JSON values and `float32` -/

/-- A Go `error`, identified by its message. -/
abbrev Err := String

/-- A JSON number literal, `mantissa * 10 ^ exponent`. -/
structure JNumber where
  mantissa : Int
  exponent : Int
deriving DecidableEq

/-- A JSON value. -/
inductive JSON where
  | null
  | bool (b : Bool)
  | number (n : JNumber)
  | string (s : String)
  | array (elems : List JSON)
  | object (members : List (String × JSON))

/-- The name `encoding/json` gives the kind of a JSON value in its errors. -/
def JSON.kind : JSON → String
  | .null => "null"
  | .bool _ => "bool"
  | .number _ => "number"
  | .string _ => "string"
  | .array _ => "array"
  | .object _ => "object"

/-- The `UnmarshalTypeError` for a JSON value that does not fit the Go type `goType`. -/
def unmarshalTypeError (v : JSON) (goType : String) : Err :=
  "json: cannot unmarshal " ++ v.kind ++ " into Go " ++ goType

/-- A Go value of interface type `any`, written as the JSON value it holds. -/
abbrev Any := JSON

/-- What the programs use of `float32`: the zero value, the constant `1`,
    subtraction, and the conversion `strconv.ParseFloat(lit, 32)` of a JSON
    number literal, which is `none` when the literal is out of range. -/
structure Float32 (F : Type) where
  zero : F
  one : F
  sub : F → F → F
  parse : JNumber → Option F

/-- The bytes handed to `json.Unmarshal`: either they fail its syntax check, or
    they are the text of one JSON value. -/
inductive JSONText where
  | malformed
  | json (v : JSON)

/-! ## langchaingo `schema.Document` -/

/-- The struct `schema.Document`: page content, metadata map and score. -/
structure Document (F : Type) where
  PageContent : String
  Metadata : List (String × Any)
  Score : F

/-- The zero value of `schema.Document`. -/
def Document.empty {F : Type} (fl : Float32 F) : Document F :=
  { PageContent := "", Metadata := [], Score := fl.zero }

/-- The map index expression `m[key]`; `none` is the nil interface. -/
def mapIndex (m : List (String × Any)) (key : String) : Option Any := m.lookup key

/-! ## Environment, traces and outcomes -/

/-- The struct `bedrockruntime.InvokeModelInput`, with `Body` given by the JSON
    value its bytes spell. -/
structure InvokeModelInput where
  ModelId : String
  Accept : String
  ContentType : String
  Body : JSON

/-- The struct `bedrockruntime.InvokeModelOutput`. -/
structure InvokeModelOutput where
  Body : JSONText

/-- An `*http.Response`: its status code and what `io.ReadAll(resp.Body)` gives. -/
structure HTTPResponse where
  StatusCode : Int
  Body : Except Err (List Byte)

/-- One invocation of the `filepath.WalkFunc`: the path, whether
    `info.IsDir()`, and the error the walk passes in. -/
structure WalkEntry where
  path : String
  isDir : Bool
  err : Option Err

/-- The external collaborators of the programs. `Walk root` is the sequence of
    callback invocations `filepath.Walk` makes for `root` as long as the
    callback keeps returning nil. -/
structure Env (F : Type) where
  ReadFile : String → Except Err (List Byte)
  Get : String → Except Err HTTPResponse
  LoadDefaultConfig : Except Err Unit
  InvokeModel : InvokeModelInput → Except Err InvokeModelOutput
  AddDocuments : List (Document F) → Except Err (List String)
  SimilaritySearch : String → Int → Except Err (List (Document F))
  Walk : String → List WalkEntry

/-- An operand of `fmt.Print` or `fmt.Println`. -/
inductive Operand (F : Type) where
  | str (s : String)
  | any (v : Option Any)
  | float32 (x : F)

/-- An observable step of a run: output on stdout or a call to a collaborator. -/
inductive Event (F : Type) where
  | Print (operands : List (Operand F))
  | Println (operands : List (Operand F))
  | ReadFile (name : String)
  | Get (url : String)
  | LoadDefaultConfig
  | InvokeModel (input : InvokeModelInput)
  | AddDocuments (docs : List (Document F))
  | SimilaritySearch (query : String) (numDocuments : Int)

/-- How a call ends: it returns, the process exits through `log.Fatal`, or a
    run-time panic is raised. -/
inductive Outcome (α : Type) where
  | ret (a : α)
  | fatal (e : Err)
  | panicked (msg : String)

/-- A run: the events in order, and how it ended. -/
structure Prog (F α : Type) where
  trace : List (Event F)
  outcome : Outcome α

/-- Sequencing: the second part runs only when the first returned. -/
def Prog.bind {F α β : Type} (p : Prog F α) (f : α → Prog F β) : Prog F β :=
  match p.outcome with
  | .ret a => { trace := p.trace ++ (f a).trace, outcome := (f a).outcome }
  | .fatal e => { trace := p.trace, outcome := .fatal e }
  | .panicked msg => { trace := p.trace, outcome := .panicked msg }

instance {F : Type} : Monad (Prog F) where
  pure a := { trace := [], outcome := .ret a }
  bind := Prog.bind

/-- A step that records one event and yields `a`. -/
def step {F α : Type} (e : Event F) (a : α) : Prog F α := { trace := [e], outcome := .ret a }

/-- The call `log.Fatal(err)`: the process exits. -/
def logFatal {F α : Type} (err : Err) : Prog F α := { trace := [], outcome := .fatal err }

/-- The index expression `texts[i]`, which panics when `i` is out of range. -/
def index {F : Type} (texts : List String) (i : Nat) : Prog F String :=
  match texts.get? i with
  | some t => pure t
  | none => { trace := [], outcome := .panicked "runtime error: index out of range" }

/-- The statement `for _, x := range xs`, with `body` as loop body. -/
def forRange {F α : Type} (xs : List α) (body : α → Prog F Unit) : Prog F Unit :=
  match xs with
  | [] => pure ()
  | x :: rest => do
      body x
      forRange rest body

/-- The call `filepath.Walk(root, fn)` over the walk sequence of `root`: the
    first non-nil error returned by the callback stops the walk and is returned. -/
def filepathWalk {F : Type} (entries : List WalkEntry) (fn : WalkEntry → Prog F (Option Err)) :
    Prog F (Option Err) :=
  match entries with
  | [] => pure none
  | e :: rest => do
      match ← fn e with
      | some err => pure (some err)
      | none => filepathWalk rest fn

/-! ## Decoding the response (`json.Unmarshal` into `Response`) -/

/-- The struct `Response`, the same in all three programs. -/
structure Response (F : Type) where
  Embedding : List F

/-- Whether an object key selects the field tagged `embedding`: the match is
    case-insensitive. -/
def matchesEmbedding (key : String) : Bool :=
  key.toList.map Char.toLower == "embedding".toList

/-- Decoding the elements of a JSON array into a `[]float32` whose backing
    memory currently holds `mem` (zero beyond it): a number is converted and
    stored, `null` leaves the slot as it is, anything else is a type error. -/
def decodeElems {F : Type} (fl : Float32 F) (mem : List F) : List JSON → Except Err (List F)
  | [] => .ok []
  | v :: rest =>
      match v with
      | .number n =>
          match fl.parse n with
          | some x => (decodeElems fl mem.tail rest).map (x :: ·)
          | none => .error (unmarshalTypeError v "struct field Response.embedding of type float32")
      | .null => (decodeElems fl mem.tail rest).map (mem.headD fl.zero :: ·)
      | _ => .error (unmarshalTypeError v "struct field Response.embedding of type float32")

/-- A `[]float32` during decoding: its backing memory and its length. -/
structure Slice (F : Type) where
  mem : List F
  len : Nat

/-- The elements of a slice. -/
def Slice.elems {F : Type} (fl : Float32 F) (s : Slice F) : List F :=
  (List.range s.len).map fun i => s.mem.getD i fl.zero

/-- Decoding one JSON value into the field `Embedding`: `null` and the empty
    array give a fresh empty slice, a non-empty array overwrites the slice from
    index 0 and sets its length, anything else is a type error. -/
def decodeField {F : Type} (fl : Float32 F) (s : Slice F) (v : JSON) : Except Err (Slice F) :=
  match v with
  | .null => .ok { mem := [], len := 0 }
  | .array [] => .ok { mem := [], len := 0 }
  | .array (x :: rest) =>
      (decodeElems fl s.mem (x :: rest)).map fun xs =>
        { mem := xs ++ s.mem.drop xs.length, len := xs.length }
  | _ => .error (unmarshalTypeError v "struct field Response.embedding of type []float32")

/-- Decoding the members of a JSON object in order: every member whose key
    selects `embedding` is decoded into the field, the others are skipped. -/
def decodeMembers {F : Type} (fl : Float32 F) (s : Slice F) : List (String × JSON) → Except Err (Slice F)
  | [] => .ok s
  | (key, v) :: rest =>
      if matchesEmbedding key then
        match decodeField fl s v with
        | .ok s1 => decodeMembers fl s1 rest
        | .error err => .error err
      else decodeMembers fl s rest

/-- The call `json.Unmarshal(body, &response)` on a zero `Response`: a syntax
    error for malformed bytes, no effect for `null`, field decoding for an
    object, a type error for every other value. -/
def jsonUnmarshal {F : Type} (fl : Float32 F) (body : JSONText) : Except Err (Response F) :=
  match body with
  | .malformed => .error "invalid character looking for beginning of value"
  | .json .null => .ok { Embedding := [] }
  | .json (.object members) =>
      match decodeMembers fl { mem := [], len := 0 } members with
      | .ok s => .ok { Embedding := s.elems fl }
      | .error err => .error err
  | .json v => .error (unmarshalTypeError v "value of type main.Response")

/-- Whether an array element is one `json.Unmarshal` stores in a `float32`
    slot without error: `null`, or a number the conversion accepts. -/
def elemAccepted {F : Type} (fl : Float32 F) : JSON → Bool
  | .null => true
  | .number n => (fl.parse n).isSome
  | _ => false

/-- Whether a value is one `json.Unmarshal` stores in the field `Embedding`
    without error: `null`, or an array of accepted elements. -/
def fieldAccepted {F : Type} (fl : Float32 F) : JSON → Bool
  | .null => true
  | .array elems => elems.all (elemAccepted fl)
  | _ => false

/-- The bodies `json.Unmarshal` decodes into a `Response` without error: the
    value `null`, and every object in which each member whose key selects
    `embedding` holds an accepted value. -/
def bodyAccepted {F : Type} (fl : Float32 F) : JSONText → Bool
  | .malformed => false
  | .json .null => true
  | .json (.object members) =>
      members.all fun kv => !matchesEmbedding kv.1 || fieldAccepted fl kv.2
  | .json _ => false

/-! ## Constants shared by the three programs -/

/-- The constant `modelID`. -/
def modelID : String := "amazon.titan-embed-image-v1"

/-- The constant `vectorDimension`. -/
def vectorDimension : Int := 1024

/-- The dimension `init` configures the store with,
    `pgvector.WithVectorDimensions(vectorDimension)`. -/
def storeVectorDimensions : Int := vectorDimension

/-- The struct `EmbeddingConfig`. -/
structure EmbeddingConfig where
  OutputEmbeddingLength : Int

/-- How `json.Marshal` writes an `EmbeddingConfig`. -/
def EmbeddingConfig.toJSON (c : EmbeddingConfig) : JSON :=
  .object [("outputEmbeddingLength", .number { mantissa := c.OutputEmbeddingLength, exponent := 0 })]

/-! ## `load/main.go` -/

namespace Load

/-- The struct `Request` of `load/main.go`. -/
structure Request where
  InputImage : String
  EmbeddingConfig : EmbeddingConfig

/-- How `json.Marshal` writes a `Request`, field by field under its tag. -/
def Request.toJSON (r : Request) : JSON :=
  .object [("inputImage", .string r.InputImage), ("embeddingConfig", r.EmbeddingConfig.toJSON)]

/-- The call `json.Marshal(req)`, which has no failing case for this struct. -/
def jsonMarshal (req : Request) : Except Err JSON := .ok req.toJSON

/-- The function `CreateEmbedding` of `load/main.go`. The result pair is the Go
    pair `([][]float32, error)`, with `[]` for the nil slice. -/
def CreateEmbedding {F : Type} (fl : Float32 F) (env : Env F) (texts : List String) :
    Prog F (List (List F) × Option Err) := do
  let t0 ← index texts 0
  let req : Request :=
    { InputImage := t0, EmbeddingConfig := { OutputEmbeddingLength := vectorDimension } }
  match jsonMarshal req with
  | .error err => pure ([], some err)
  | .ok reqJSON =>
      match ← step .LoadDefaultConfig env.LoadDefaultConfig with
      | .error err => logFatal err
      | .ok _ =>
          let input : InvokeModelInput :=
            { ModelId := modelID, Accept := "*/*", ContentType := "application/json",
              Body := reqJSON }
          match ← step (.InvokeModel input) (env.InvokeModel input) with
          | .error err => pure ([], some err)
          | .ok result =>
              match jsonUnmarshal fl result.Body with
              | .error err => pure ([], some err)
              | .ok response => pure ([response.Embedding], none)

/-- The function `imageToLangchainDoc`, returning the Go pair
    `(schema.Document, error)`. -/
def imageToLangchainDoc {F : Type} (fl : Float32 F) (env : Env F) (source : String) :
    Prog F (Document F × Option Err) := do
  match ← step (.ReadFile source) (env.ReadFile source) with
  | .error err => pure (Document.empty fl, some err)
  | .ok imageBytes =>
      let encodedString := EncodeToString imageBytes
      pure ({ PageContent := encodedString, Metadata := [("source", .string source)],
              Score := fl.zero }, none)

/-- The Document `imageToLangchainDoc` builds for `source` from the bytes read. -/
def documentOf {F : Type} (fl : Float32 F) (source : String) (imageBytes : List Byte) :
    Document F :=
  { PageContent := EncodeToString imageBytes, Metadata := [("source", .string source)],
    Score := fl.zero }

/-- The function `load`. -/
def load {F : Type} (fl : Float32 F) (env : Env F) (source : String) : Prog F Unit := do
  match ← imageToLangchainDoc fl env source with
  | (_, some err) => logFatal err
  | (doc, none) =>
      match ← step (.AddDocuments [doc]) (env.AddDocuments [doc]) with
      | .error err => logFatal err
      | .ok _ =>
          step (.Println [.str "successfully loaded", .str source, .str "into vector store"]) ()

/-- The function literal passed to `filepath.Walk` in `main`. -/
def walkFn {F : Type} (fl : Float32 F) (env : Env F) (e : WalkEntry) : Prog F (Option Err) :=
  match e.err with
  | some err => pure (some err)
  | none =>
      if !e.isDir then do
        load fl env e.path
        pure none
      else pure none

/-- The function `main`. -/
def main {F : Type} (fl : Float32 F) (env : Env F) : Prog F Unit := do
  let root := "sample_images"
  match ← filepathWalk (env.Walk root) (walkFn fl env) with
  | some err => logFatal err
  | none => step (.Println [.str "data successfully loaded into vector store"]) ()

/-- The `InvokeModelInput` expected for a first text `t`: the constant model
    id and content types, and the body with `t` under `inputImage`. -/
def invokeInput (t : String) : InvokeModelInput :=
  { ModelId := "amazon.titan-embed-image-v1", Accept := "*/*", ContentType := "application/json",
    Body := .object [("inputImage", .string t),
      ("embeddingConfig", .object [("outputEmbeddingLength", .number { mantissa := 1024, exponent := 0 })])] }

end Load

/-! ## `query_image/main.go` -/

namespace QueryImage

/-- The struct `Request` of `query_image/main.go`. -/
structure Request where
  InputImage : String
  EmbeddingConfig : EmbeddingConfig

/-- How `json.Marshal` writes a `Request`, field by field under its tag. -/
def Request.toJSON (r : Request) : JSON :=
  .object [("inputImage", .string r.InputImage), ("embeddingConfig", r.EmbeddingConfig.toJSON)]

/-- The call `json.Marshal(req)`, which has no failing case for this struct. -/
def jsonMarshal (req : Request) : Except Err JSON := .ok req.toJSON

/-- The function `CreateEmbedding` of `query_image/main.go`. The result pair is the Go
    pair `([][]float32, error)`, with `[]` for the nil slice. -/
def CreateEmbedding {F : Type} (fl : Float32 F) (env : Env F) (texts : List String) :
    Prog F (List (List F) × Option Err) := do
  let t0 ← index texts 0
  let req : Request :=
    { InputImage := t0, EmbeddingConfig := { OutputEmbeddingLength := vectorDimension } }
  match jsonMarshal req with
  | .error err => pure ([], some err)
  | .ok reqJSON =>
      match ← step .LoadDefaultConfig env.LoadDefaultConfig with
      | .error err => logFatal err
      | .ok _ =>
          let input : InvokeModelInput :=
            { ModelId := modelID, Accept := "*/*", ContentType := "application/json",
              Body := reqJSON }
          match ← step (.InvokeModel input) (env.InvokeModel input) with
          | .error err => pure ([], some err)
          | .ok result =>
              match jsonUnmarshal fl result.Body with
              | .error err => pure ([], some err)
              | .ok response => pure ([response.Embedding], none)

/-- The function `imageToBase64String`, returning the Go pair `(string, error)`. -/
def imageToBase64String {F : Type} (env : Env F) (source : String) :
    Prog F (String × Option Err) := do
  if Contains source "http" then
    match ← step (.Get source) (env.Get source) with
    | .error err => pure ("", some err)
    | .ok resp =>
        match resp.Body with
        | .error err => pure ("", some err)
        | .ok imageBytes => pure (EncodeToString imageBytes, none)
  else
    match ← step (.ReadFile source) (env.ReadFile source) with
    | .error err => pure ("", some err)
    | .ok imageBytes => pure (EncodeToString imageBytes, none)

/-- The local `numOfResults` of `main`. -/
def numOfResults : Int := 5

/-- One pass through the body of the `for` loop of `main` in
    `query_image/main.go`, for the line `line` read from stdin. -/
def mainLoopBody {F : Type} (fl : Float32 F) (env : Env F) (line : String) : Prog F Unit := do
  step (.Print [.str "\nEnter image source: "]) ()
  let imagePath := TrimSpace line
  match ← imageToBase64String env imagePath with
  | (_, some err) => logFatal err
  | (base64EncodedImage, none) =>
      match ← step (.SimilaritySearch base64EncodedImage numOfResults) (env.SimilaritySearch base64EncodedImage numOfResults) with
      | .error err => logFatal err
      | .ok results =>
          step (.Println [.str "=====RESULTS======="]) ()
          forRange results fun result =>
            step (.Println [.str "[search result with score]:",
              .any (mapIndex result.Metadata "source"), .float32 (fl.sub fl.one result.Score)]) ()
          step (.Println [.str "============"]) ()

/-- The `InvokeModelInput` expected for a first text `t`: the constant model
    id and content types, and the body with `t` under `inputImage`. -/
def invokeInput (t : String) : InvokeModelInput :=
  { ModelId := "amazon.titan-embed-image-v1", Accept := "*/*", ContentType := "application/json",
    Body := .object [("inputImage", .string t),
      ("embeddingConfig", .object [("outputEmbeddingLength", .number { mantissa := 1024, exponent := 0 })])] }

end QueryImage

/-! ## `query_text/main.go` -/

namespace QueryText

/-- The struct `Request` of `query_text/main.go`. -/
structure Request where
  InputText : String
  EmbeddingConfig : EmbeddingConfig

/-- How `json.Marshal` writes a `Request`, field by field under its tag. -/
def Request.toJSON (r : Request) : JSON :=
  .object [("inputText", .string r.InputText), ("embeddingConfig", r.EmbeddingConfig.toJSON)]

/-- The call `json.Marshal(req)`, which has no failing case for this struct. -/
def jsonMarshal (req : Request) : Except Err JSON := .ok req.toJSON

/-- The function `CreateEmbedding` of `query_text/main.go`. The result pair is the Go
    pair `([][]float32, error)`, with `[]` for the nil slice. -/
def CreateEmbedding {F : Type} (fl : Float32 F) (env : Env F) (texts : List String) :
    Prog F (List (List F) × Option Err) := do
  let t0 ← index texts 0
  let req : Request :=
    { InputText := t0, EmbeddingConfig := { OutputEmbeddingLength := vectorDimension } }
  match jsonMarshal req with
  | .error err => pure ([], some err)
  | .ok reqJSON =>
      match ← step .LoadDefaultConfig env.LoadDefaultConfig with
      | .error err => logFatal err
      | .ok _ =>
          let input : InvokeModelInput :=
            { ModelId := modelID, Accept := "*/*", ContentType := "application/json",
              Body := reqJSON }
          match ← step (.InvokeModel input) (env.InvokeModel input) with
          | .error err => pure ([], some err)
          | .ok result =>
              match jsonUnmarshal fl result.Body with
              | .error err => pure ([], some err)
              | .ok response => pure ([response.Embedding], none)

/-- The local `numOfResults` of `main`. -/
def numOfResults : Int := 5

/-- One pass through the body of the `for` loop of `main` in
    `query_text/main.go`, for the line `line` read from stdin. -/
def mainLoopBody {F : Type} (fl : Float32 F) (env : Env F) (line : String) : Prog F Unit := do
  step (.Print [.str "\nEnter your message: "]) ()
  let question := TrimSpace line
  match ← step (.SimilaritySearch question numOfResults) (env.SimilaritySearch question numOfResults) with
  | .error err => logFatal err
  | .ok results =>
      step (.Println [.str "=====RESULTS======="]) ()
      forRange results fun result =>
        step (.Println [.str "[search result with score]:",
          .any (mapIndex result.Metadata "source"), .float32 (fl.sub fl.one result.Score)]) ()
      step (.Println [.str "============"]) ()

/-- The `InvokeModelInput` expected for a first text `t`: the constant model
    id and content types, and the body with `t` under `inputText`. -/
def invokeInput (t : String) : InvokeModelInput :=
  { ModelId := "amazon.titan-embed-image-v1", Accept := "*/*", ContentType := "application/json",
    Body := .object [("inputText", .string t),
      ("embeddingConfig", .object [("outputEmbeddingLength", .number { mantissa := 1024, exponent := 0 })])] }

end QueryText

/-! ## Small exact model of `float32` on integers -/

/-- The `float32` values that are integers of magnitude at most `2 ^ 24`, on
    which conversion and subtraction are exact; other literals are not
    converted by this model. -/
def intFloat32 : Float32 Int :=
  { zero := 0
    one := 1
    sub := fun a b => a - b
    parse := fun n =>
      if n.exponent = 0 ∧ -16777216 ≤ n.mantissa ∧ n.mantissa ≤ 16777216 then some n.mantissa
      else none }

/-! ## Reading traces -/

/-- The file names passed to `os.ReadFile` during a run, in order. -/
def readFiles {F : Type} (tr : List (Event F)) : List String :=
  tr.filterMap fun
    | .ReadFile name => some name
    | _ => none

/-- The documents of the `AddDocuments` calls of a run that the store
    accepted, in order. -/
def insertedDocuments {F : Type} (env : Env F) (tr : List (Event F)) : List (Document F) :=
  tr.flatMap fun
    | .AddDocuments docs =>
        match env.AddDocuments docs with
        | .ok _ => docs
        | .error _ => []
    | _ => []

/-! ## Sample environments -/

/-- A small environment: two image files under `sample_images`, one URL that
    answers 404 with a three-byte body, a model that answers with a
    one-element embedding, and a store that accepts every document and
    returns two results for every query. -/
def sampleEnv : Env Int :=
  { ReadFile := fun name =>
      if name = "sample_images/a.jpg" then .ok [77, 97, 110]
      else if name = "sample_images/b.jpg" then .ok [77, 97]
      else .error "open: no such file or directory"
    Get := fun url =>
      if url = "http://example.com/cat.jpg" then .ok { StatusCode := 404, Body := .ok [77, 97, 110] }
      else .error "Get: no such host"
    LoadDefaultConfig := .ok ()
    InvokeModel := fun _ =>
      .ok { Body := .json (.object [("embedding", .array [.number { mantissa := 1, exponent := 0 }])]) }
    AddDocuments := fun _ => .ok []
    SimilaritySearch := fun _ _ =>
      .ok [{ PageContent := "TWFu", Metadata := [("source", .string "sample_images/a.jpg")], Score := 0 },
           { PageContent := "TWE=", Metadata := [("source", .string "sample_images/b.jpg")], Score := 1 }]
    Walk := fun root =>
      if root = "sample_images" then
        [{ path := "sample_images", isDir := true, err := none },
         { path := "sample_images/a.jpg", isDir := false, err := none },
         { path := "sample_images/b.jpg", isDir := false, err := none }]
      else [{ path := root, isDir := false, err := some "lstat: no such file or directory" }] }

/-- The sample environment with a model invocation that fails. -/
def throttledEnv : Env Int :=
  { sampleEnv with InvokeModel := fun _ => .error "ThrottlingException" }

/-- The sample environment with a model whose response body is not JSON. -/
def garbledEnv : Env Int :=
  { sampleEnv with InvokeModel := fun _ => .ok { Body := .malformed } }

/-- The sample environment with a store that rejects `sample_images/a.jpg`. -/
def rejectingEnv : Env Int :=
  { sampleEnv with
    AddDocuments := fun docs =>
      if docs.map (fun d => d.PageContent) = ["TWFu"] then .error "pq: connection refused"
      else .ok [] }

/-- The sample environment with a store that is empty. -/
def emptyStoreEnv : Env Int :=
  { sampleEnv with SimilaritySearch := fun _ _ => .ok [] }

/-- The sample environment with a model whose response body is `null`. -/
def nullBodyEnv : Env Int :=
  { sampleEnv with InvokeModel := fun _ => .ok { Body := .json .null } }

/-- The sample environment with a model whose response body is an error
    envelope, an object with a `message` member only. -/
def errorEnvelopeEnv : Env Int :=
  { sampleEnv with
    InvokeModel := fun _ =>
      .ok { Body := .json (.object [("message", .string "Malformed input request")]) } }

/-- The sample environment with a model whose response body has `null` under
    `embedding`. -/
def nullEmbeddingEnv : Env Int :=
  { sampleEnv with
    InvokeModel := fun _ => .ok { Body := .json (.object [("embedding", .null)]) } }

/-- The sample environment with a model whose response body has the array
    `[null]` under `embedding`. -/
def nullElementEnv : Env Int :=
  { sampleEnv with
    InvokeModel := fun _ => .ok { Body := .json (.object [("embedding", .array [.null])]) } }

/-- The sample environment with a model whose response body has a string
    under `embedding`. -/
def stringEmbeddingEnv : Env Int :=
  { sampleEnv with
    InvokeModel := fun _ => .ok { Body := .json (.object [("embedding", .string "none")]) } }

theorem shl_or3 (a b c : Nat) (hb : b < 256) (hc : c < 256) :
    a <<< 16 ||| b <<< 8 ||| c = a * 65536 + b * 256 + c := by
  have h1 : a <<< 16 ||| b <<< 8 = 2 ^ 8 * (a * 256 + b) := by
    rw [Nat.shiftLeft_eq, Nat.shiftLeft_eq]
    have : a * 2 ^ 16 = 2 ^ 16 * a := by ring
    rw [this, ← Nat.mul_add_lt_is_or (by omega : b * 2 ^ 8 < 2 ^ 16)]
    ring
  rw [h1, ← Nat.mul_add_lt_is_or (by omega : c < 2 ^ 8)]
  ring

theorem shl_or2 (a b : Nat) (hb : b < 256) :
    a <<< 16 ||| b <<< 8 = a * 65536 + b * 256 := by
  have := shl_or3 a b 0 hb (by decide)
  simpa using this

theorem and_0x3F (x : Nat) : x &&& 0x3F = x % 64 := Nat.and_pow_two_sub_one_eq_mod x 6

theorem shl_or4 (a b c d : Nat) (hb : b < 64) (hc : c < 64) (hd : d < 64) :
    a <<< 18 ||| b <<< 12 ||| c <<< 6 ||| d = a * 262144 + b * 4096 + c * 64 + d := by
  have h1 : a <<< 18 ||| b <<< 12 = 2 ^ 12 * (a * 64 + b) := by
    rw [Nat.shiftLeft_eq, Nat.shiftLeft_eq]
    have : a * 2 ^ 18 = 2 ^ 18 * a := by ring
    rw [this, ← Nat.mul_add_lt_is_or (by omega : b * 2 ^ 12 < 2 ^ 18)]
    ring
  have h2 : 2 ^ 12 * (a * 64 + b) ||| c <<< 6 = 2 ^ 6 * (a * 4096 + b * 64 + c) := by
    rw [Nat.shiftLeft_eq, ← Nat.mul_add_lt_is_or (by omega : c * 2 ^ 6 < 2 ^ 12)]
    ring
  rw [h1, h2, ← Nat.mul_add_lt_is_or (by omega : d < 2 ^ 6)]
  ring

theorem shl_or3six (a b c : Nat) (hb : b < 64) (hc : c < 64) :
    a <<< 18 ||| b <<< 12 ||| c <<< 6 = a * 262144 + b * 4096 + c * 64 := by
  simpa using shl_or4 a b c 0 hb hc (by decide)

theorem shl_or2six (a b : Nat) (hb : b < 64) :
    a <<< 18 ||| b <<< 12 = a * 262144 + b * 4096 := by
  rw [Nat.shiftLeft_eq, Nat.shiftLeft_eq]
  have : a * 2 ^ 18 = 2 ^ 18 * a := by ring
  rw [this, ← Nat.mul_add_lt_is_or (by omega : b * 2 ^ 12 < 2 ^ 18)]
  ring

set_option maxRecDepth 4000 in
theorem decodeChar_encodeChar (i : Nat) (h : i < 64) : decodeChar (encodeChar i) = some i := by
  interval_cases i <;> decide

theorem encodeChar_ne_pad (i : Nat) (h : i < 64) : encodeChar i ≠ padChar := by
  interval_cases i <;> decide

theorem decodeChars_encodeBytes (bs : List Byte) : decodeChars (encodeBytes bs) = some bs := by
  induction bs using encodeBytes.induct with
  | case1 a b c rest ih =>
      have ha := a.isLt; have hb := b.isLt; have hc := c.isLt
      simp only [encodeBytes]
      rw [shl_or3 _ _ _ hb hc]
      simp only [Nat.shiftRight_eq_div_pow, and_0x3F]
      unfold decodeChars
      simp only [decodeChar_encodeChar _ (Nat.mod_lt _ (by decide : 0 < 64)),
        encodeChar_ne_pad _ (Nat.mod_lt _ (by decide : 0 < 64)), if_false, ih, Option.map_some']
      rw [shl_or4 _ _ _ _ (Nat.mod_lt _ (by decide)) (Nat.mod_lt _ (by decide)) (Nat.mod_lt _ (by decide))]
      simp only [Option.some.injEq, List.cons.injEq, and_true, toByte, Nat.shiftRight_eq_div_pow]
      refine ⟨Fin.ext ?_, Fin.ext ?_, Fin.ext ?_⟩ <;> simp only <;> omega
  | case2 a b =>
      have ha := a.isLt; have hb := b.isLt
      simp only [encodeBytes]
      rw [shl_or2 _ _ hb]
      simp only [Nat.shiftRight_eq_div_pow, and_0x3F]
      unfold decodeChars
      simp only [decodeChar_encodeChar _ (Nat.mod_lt _ (by decide : 0 < 64)),
        encodeChar_ne_pad _ (Nat.mod_lt _ (by decide : 0 < 64)), if_false, if_true]
      rw [shl_or3six _ _ _ (Nat.mod_lt _ (by decide)) (Nat.mod_lt _ (by decide))]
      simp only [Option.some.injEq, List.cons.injEq, and_true, toByte, Nat.shiftRight_eq_div_pow]
      refine ⟨Fin.ext ?_, Fin.ext ?_⟩ <;> simp only <;> omega
  | case3 a =>
      have ha := a.isLt
      simp only [encodeBytes]
      simp only [Nat.shiftRight_eq_div_pow, and_0x3F, Nat.shiftLeft_eq]
      unfold decodeChars
      simp only [decodeChar_encodeChar _ (Nat.mod_lt _ (by decide : 0 < 64)), if_true, and_self]
      rw [shl_or2six _ _ (Nat.mod_lt _ (by decide))]
      simp only [Option.some.injEq, List.cons.injEq, and_true, toByte, Nat.shiftRight_eq_div_pow]
      refine Fin.ext ?_
      simp only; omega
  | case4 => rfl

/-- Encoding then decoding gives the bytes back. -/
theorem DecodeString_EncodeToString (bs : List Byte) :
    DecodeString (EncodeToString bs) = some bs := by
  simp only [DecodeString, EncodeToString, String.toList]
  exact decodeChars_encodeBytes bs

/-! ## `strings.Contains` -/

theorem containsChars_iff (s substr : List Char) :
    containsChars s substr = true ↔ substr <:+: s := by
  induction s with
  | nil => simp [containsChars, List.infix_nil, List.isEmpty_iff]
  | cons c cs ih =>
    simp only [containsChars, Bool.or_eq_true, ih, List.infix_cons_iff,
      List.isPrefixOf_iff_prefix]

theorem Contains_iff (s substr : String) :
    Contains s substr = true ↔ substr.toList <:+: s.toList :=
  containsChars_iff _ _

/-! ## Unfolding the runs -/

section Runs
variable {F : Type} {α β : Type}

theorem bind_eq (p : Prog F α) (f : α → Prog F β) : (p >>= f) = Prog.bind p f := rfl

theorem pure_eq (a : α) : (pure a : Prog F α) = { trace := [], outcome := .ret a } := rfl


/-- `Load.CreateEmbedding` on a non-empty input, as one expression in the
    answers of the environment. -/
theorem Load.loadCreateEmbedding_cons (fl : Float32 F) (env : Env F) (t : String)
    (rest : List String) :
    Load.CreateEmbedding fl env (t :: rest) =
      match env.LoadDefaultConfig with
      | .error err => { trace := [.LoadDefaultConfig], outcome := .fatal err }
      | .ok _ =>
          { trace := [.LoadDefaultConfig, .InvokeModel (Load.invokeInput t)],
            outcome := .ret (match env.InvokeModel (Load.invokeInput t) with
              | .error err => ([], some err)
              | .ok result =>
                  match jsonUnmarshal fl result.Body with
                  | .error err => ([], some err)
                  | .ok response => ([response.Embedding], none)) } := by
  simp only [Load.CreateEmbedding, Load.invokeInput, index, List.get?, bind_eq, pure_eq,
    Prog.bind, step, logFatal, Load.jsonMarshal, Load.Request.toJSON, EmbeddingConfig.toJSON,
    vectorDimension, modelID]
  cases h1 : env.LoadDefaultConfig with
  | error e => simp
  | ok u =>
    simp only []
    split <;> rename_i h2
    · simp [h2]
    · split <;> simp_all

/-- `Load.CreateEmbedding` on the empty input: the index expression panics
    before anything else happens. -/
theorem Load.loadCreateEmbedding_nil (fl : Float32 F) (env : Env F) :
    Load.CreateEmbedding fl env [] =
      { trace := [], outcome := .panicked "runtime error: index out of range" } := rfl

/-- `QueryImage.CreateEmbedding` on a non-empty input, as one expression in the
    answers of the environment. -/
theorem QueryImage.queryImageCreateEmbedding_cons (fl : Float32 F) (env : Env F) (t : String)
    (rest : List String) :
    QueryImage.CreateEmbedding fl env (t :: rest) =
      match env.LoadDefaultConfig with
      | .error err => { trace := [.LoadDefaultConfig], outcome := .fatal err }
      | .ok _ =>
          { trace := [.LoadDefaultConfig, .InvokeModel (QueryImage.invokeInput t)],
            outcome := .ret (match env.InvokeModel (QueryImage.invokeInput t) with
              | .error err => ([], some err)
              | .ok result =>
                  match jsonUnmarshal fl result.Body with
                  | .error err => ([], some err)
                  | .ok response => ([response.Embedding], none)) } := by
  simp only [QueryImage.CreateEmbedding, QueryImage.invokeInput, index, List.get?, bind_eq, pure_eq,
    Prog.bind, step, logFatal, QueryImage.jsonMarshal, QueryImage.Request.toJSON, EmbeddingConfig.toJSON,
    vectorDimension, modelID]
  cases h1 : env.LoadDefaultConfig with
  | error e => simp
  | ok u =>
    simp only []
    split <;> rename_i h2
    · simp [h2]
    · split <;> simp_all

/-- `QueryImage.CreateEmbedding` on the empty input: the index expression panics
    before anything else happens. -/
theorem QueryImage.queryImageCreateEmbedding_nil (fl : Float32 F) (env : Env F) :
    QueryImage.CreateEmbedding fl env [] =
      { trace := [], outcome := .panicked "runtime error: index out of range" } := rfl

/-- `QueryText.CreateEmbedding` on a non-empty input, as one expression in the
    answers of the environment. -/
theorem QueryText.queryTextCreateEmbedding_cons (fl : Float32 F) (env : Env F) (t : String)
    (rest : List String) :
    QueryText.CreateEmbedding fl env (t :: rest) =
      match env.LoadDefaultConfig with
      | .error err => { trace := [.LoadDefaultConfig], outcome := .fatal err }
      | .ok _ =>
          { trace := [.LoadDefaultConfig, .InvokeModel (QueryText.invokeInput t)],
            outcome := .ret (match env.InvokeModel (QueryText.invokeInput t) with
              | .error err => ([], some err)
              | .ok result =>
                  match jsonUnmarshal fl result.Body with
                  | .error err => ([], some err)
                  | .ok response => ([response.Embedding], none)) } := by
  simp only [QueryText.CreateEmbedding, QueryText.invokeInput, index, List.get?, bind_eq, pure_eq,
    Prog.bind, step, logFatal, QueryText.jsonMarshal, QueryText.Request.toJSON, EmbeddingConfig.toJSON,
    vectorDimension, modelID]
  cases h1 : env.LoadDefaultConfig with
  | error e => simp
  | ok u =>
    simp only []
    split <;> rename_i h2
    · simp [h2]
    · split <;> simp_all

/-- `QueryText.CreateEmbedding` on the empty input: the index expression panics
    before anything else happens. -/
theorem QueryText.queryTextCreateEmbedding_nil (fl : Float32 F) (env : Env F) :
    QueryText.CreateEmbedding fl env [] =
      { trace := [], outcome := .panicked "runtime error: index out of range" } := rfl

/-- The three ways `Load.CreateEmbedding` ends on a non-empty input once the
    configuration is loaded. -/
theorem Load.loadCreateEmbedding_outcome (fl : Float32 F) (env : Env F) (t : String)
    (rest : List String) (hcfg : env.LoadDefaultConfig = .ok ()) :
    (∃ err, env.InvokeModel (Load.invokeInput t) = .error err ∧
      (Load.CreateEmbedding fl env (t :: rest)).outcome = .ret ([], some err)) ∨
    (∃ result err, env.InvokeModel (Load.invokeInput t) = .ok result ∧
      jsonUnmarshal fl result.Body = .error err ∧
      (Load.CreateEmbedding fl env (t :: rest)).outcome = .ret ([], some err)) ∨
    (∃ result response, env.InvokeModel (Load.invokeInput t) = .ok result ∧
      jsonUnmarshal fl result.Body = .ok response ∧
      (Load.CreateEmbedding fl env (t :: rest)).outcome = .ret ([response.Embedding], none)) := by
  rw [Load.loadCreateEmbedding_cons]
  simp only [hcfg]
  cases h1 : env.InvokeModel (Load.invokeInput t) with
  | error e => exact Or.inl ⟨e, rfl, rfl⟩
  | ok result =>
    cases h2 : jsonUnmarshal fl result.Body with
    | error e => exact Or.inr (Or.inl ⟨result, e, rfl, h2, by simp only [h2]⟩)
    | ok response => exact Or.inr (Or.inr ⟨result, response, rfl, h2, by simp only [h2]⟩)

/-- The three ways `QueryImage.CreateEmbedding` ends on a non-empty input once the
    configuration is loaded. -/
theorem QueryImage.queryImageCreateEmbedding_outcome (fl : Float32 F) (env : Env F) (t : String)
    (rest : List String) (hcfg : env.LoadDefaultConfig = .ok ()) :
    (∃ err, env.InvokeModel (QueryImage.invokeInput t) = .error err ∧
      (QueryImage.CreateEmbedding fl env (t :: rest)).outcome = .ret ([], some err)) ∨
    (∃ result err, env.InvokeModel (QueryImage.invokeInput t) = .ok result ∧
      jsonUnmarshal fl result.Body = .error err ∧
      (QueryImage.CreateEmbedding fl env (t :: rest)).outcome = .ret ([], some err)) ∨
    (∃ result response, env.InvokeModel (QueryImage.invokeInput t) = .ok result ∧
      jsonUnmarshal fl result.Body = .ok response ∧
      (QueryImage.CreateEmbedding fl env (t :: rest)).outcome = .ret ([response.Embedding], none)) := by
  rw [QueryImage.queryImageCreateEmbedding_cons]
  simp only [hcfg]
  cases h1 : env.InvokeModel (QueryImage.invokeInput t) with
  | error e => exact Or.inl ⟨e, rfl, rfl⟩
  | ok result =>
    cases h2 : jsonUnmarshal fl result.Body with
    | error e => exact Or.inr (Or.inl ⟨result, e, rfl, h2, by simp only [h2]⟩)
    | ok response => exact Or.inr (Or.inr ⟨result, response, rfl, h2, by simp only [h2]⟩)

/-- The three ways `QueryText.CreateEmbedding` ends on a non-empty input once the
    configuration is loaded. -/
theorem QueryText.queryTextCreateEmbedding_outcome (fl : Float32 F) (env : Env F) (t : String)
    (rest : List String) (hcfg : env.LoadDefaultConfig = .ok ()) :
    (∃ err, env.InvokeModel (QueryText.invokeInput t) = .error err ∧
      (QueryText.CreateEmbedding fl env (t :: rest)).outcome = .ret ([], some err)) ∨
    (∃ result err, env.InvokeModel (QueryText.invokeInput t) = .ok result ∧
      jsonUnmarshal fl result.Body = .error err ∧
      (QueryText.CreateEmbedding fl env (t :: rest)).outcome = .ret ([], some err)) ∨
    (∃ result response, env.InvokeModel (QueryText.invokeInput t) = .ok result ∧
      jsonUnmarshal fl result.Body = .ok response ∧
      (QueryText.CreateEmbedding fl env (t :: rest)).outcome = .ret ([response.Embedding], none)) := by
  rw [QueryText.queryTextCreateEmbedding_cons]
  simp only [hcfg]
  cases h1 : env.InvokeModel (QueryText.invokeInput t) with
  | error e => exact Or.inl ⟨e, rfl, rfl⟩
  | ok result =>
    cases h2 : jsonUnmarshal fl result.Body with
    | error e => exact Or.inr (Or.inl ⟨result, e, rfl, h2, by simp only [h2]⟩)
    | ok response => exact Or.inr (Or.inr ⟨result, response, rfl, h2, by simp only [h2]⟩)

end Runs

/-! ## The decoder of the response -/

section Decoder
variable {F : Type}

/-- Whether the elements of an array decode does not depend on the memory of
    the slice: they do exactly when each of them is accepted. -/
theorem decodeElems_ok_iff (fl : Float32 F) (elems : List JSON) (mem : List F) :
    (∃ xs, decodeElems fl mem elems = .ok xs) ↔ elems.all (elemAccepted fl) = true := by
  induction elems generalizing mem with
  | nil => simp [decodeElems]
  | cons v rest ih =>
    cases v with
    | null =>
      simp only [decodeElems, List.all_cons, elemAccepted, Bool.true_and, ← ih mem.tail]
      cases decodeElems fl mem.tail rest <;> simp [Except.map]
    | number n =>
      simp only [decodeElems, List.all_cons, elemAccepted]
      cases hp : fl.parse n with
      | none => simp
      | some x =>
        simp only [Option.isSome_some, Bool.true_and, ← ih mem.tail]
        cases decodeElems fl mem.tail rest <;> simp [Except.map]
    | bool b => simp [decodeElems, elemAccepted]
    | string s => simp [decodeElems, elemAccepted]
    | array xs => simp [decodeElems, elemAccepted]
    | object ms => simp [decodeElems, elemAccepted]

/-- Whether a value decodes into the field does not depend on the slice: it
    does exactly when it is accepted. -/
theorem decodeField_ok_iff (fl : Float32 F) (s : Slice F) (v : JSON) :
    (∃ s1, decodeField fl s v = .ok s1) ↔ fieldAccepted fl v = true := by
  cases v with
  | null => simp [decodeField, fieldAccepted]
  | array elems =>
    cases elems with
    | nil => simp [decodeField, fieldAccepted]
    | cons x rest =>
      simp only [decodeField, fieldAccepted, ← decodeElems_ok_iff fl (x :: rest) s.mem]
      cases decodeElems fl s.mem (x :: rest) <;> simp [Except.map]
  | bool b => simp [decodeField, fieldAccepted]
  | number n => simp [decodeField, fieldAccepted]
  | string s => simp [decodeField, fieldAccepted]
  | object ms => simp [decodeField, fieldAccepted]

/-- The members of an object decode exactly when every member whose key
    selects `embedding` holds an accepted value. -/
theorem decodeMembers_ok_iff (fl : Float32 F) (members : List (String × JSON)) (s : Slice F) :
    (∃ s1, decodeMembers fl s members = .ok s1) ↔
      members.all (fun kv => !matchesEmbedding kv.1 || fieldAccepted fl kv.2) = true := by
  induction members generalizing s with
  | nil => simp [decodeMembers]
  | cons kv rest ih =>
    obtain ⟨key, v⟩ := kv
    simp only [decodeMembers, List.all_cons]
    cases hk : matchesEmbedding key with
    | false => simp [ih s]
    | true =>
      simp only [if_true, Bool.not_true, Bool.false_or]
      cases hf : decodeField fl s v with
      | error err =>
        have : fieldAccepted fl v = false := by
          cases ha : fieldAccepted fl v with
          | false => rfl
          | true =>
            obtain ⟨s1, hs1⟩ := (decodeField_ok_iff fl s v).2 ha
            rw [hf] at hs1; cases hs1
        simp [this]
      | ok s1 =>
        have : fieldAccepted fl v = true := (decodeField_ok_iff fl s v).1 ⟨s1, hf⟩
        simp [this, ih s1]

/-- The call `json.Unmarshal(body, &response)` succeeds exactly on the
    accepted bodies. -/
theorem jsonUnmarshal_ok_iff (fl : Float32 F) (body : JSONText) :
    (∃ response, jsonUnmarshal fl body = .ok response) ↔ bodyAccepted fl body = true := by
  cases body with
  | malformed => simp [jsonUnmarshal, bodyAccepted]
  | json v =>
    cases v with
    | null => simp [jsonUnmarshal, bodyAccepted]
    | object members =>
      simp only [jsonUnmarshal, bodyAccepted, ← decodeMembers_ok_iff fl members { mem := [], len := 0 }]
      cases decodeMembers fl { mem := [], len := 0 } members <;> simp
    | bool b => simp [jsonUnmarshal, bodyAccepted]
    | number n => simp [jsonUnmarshal, bodyAccepted]
    | string s => simp [jsonUnmarshal, bodyAccepted]
    | array xs => simp [jsonUnmarshal, bodyAccepted]

/-- The call `json.Unmarshal(body, &response)` fails exactly on the bodies
    that are not accepted. -/
theorem jsonUnmarshal_error_iff (fl : Float32 F) (body : JSONText) :
    (∃ err, jsonUnmarshal fl body = .error err) ↔ bodyAccepted fl body = false := by
  have h := jsonUnmarshal_ok_iff fl body
  cases hu : jsonUnmarshal fl body with
  | error err =>
    rw [hu] at h
    simp only [reduceCtorEq, exists_false, false_iff, Bool.not_eq_true] at h
    simp [h]
  | ok response =>
    rw [hu] at h
    simp only [Except.ok.injEq, exists_eq', true_iff] at h
    simp [h]

end Decoder

/-! ## `CreateEmbedding` -/

section CreateEmbedding
variable {F : Type}

/-- C1: for an input list with first element `t`, the run of `CreateEmbedding`
    loads the configuration and, when that succeeds, sends exactly one request,
    whose body has `t` under `inputImage` (load, query_image) or under
    `inputText` (query_text) and nothing under the other field, next to an
    `embeddingConfig` whose `outputEmbeddingLength` is `vectorDimension`, 1024,
    the dimension the store is configured with. -/
theorem createEmbedding_request_payload (fl : Float32 F) (env : Env F) (t : String)
    (rest : List String) :
    (Load.CreateEmbedding fl env (t :: rest)).trace =
      (match env.LoadDefaultConfig with
       | .error _ => [.LoadDefaultConfig]
       | .ok _ => [.LoadDefaultConfig, .InvokeModel
          { ModelId := modelID, Accept := "*/*", ContentType := "application/json",
            Body := .object [("inputImage", .string t), ("embeddingConfig",
              .object [("outputEmbeddingLength", .number ⟨vectorDimension, 0⟩)])] }]) ∧
    (QueryImage.CreateEmbedding fl env (t :: rest)).trace =
      (match env.LoadDefaultConfig with
       | .error _ => [.LoadDefaultConfig]
       | .ok _ => [.LoadDefaultConfig, .InvokeModel
          { ModelId := modelID, Accept := "*/*", ContentType := "application/json",
            Body := .object [("inputImage", .string t), ("embeddingConfig",
              .object [("outputEmbeddingLength", .number ⟨vectorDimension, 0⟩)])] }]) ∧
    (QueryText.CreateEmbedding fl env (t :: rest)).trace =
      (match env.LoadDefaultConfig with
       | .error _ => [.LoadDefaultConfig]
       | .ok _ => [.LoadDefaultConfig, .InvokeModel
          { ModelId := modelID, Accept := "*/*", ContentType := "application/json",
            Body := .object [("inputText", .string t), ("embeddingConfig",
              .object [("outputEmbeddingLength", .number ⟨vectorDimension, 0⟩)])] }]) ∧
    vectorDimension = 1024 ∧ storeVectorDimensions = vectorDimension := by
  rw [Load.loadCreateEmbedding_cons, QueryImage.queryImageCreateEmbedding_cons,
    QueryText.queryTextCreateEmbedding_cons]
  refine ⟨?_, ?_, ?_, rfl, rfl⟩ <;> cases env.LoadDefaultConfig <;> rfl

/-- What the three `CreateEmbedding` return on a non-empty input once the
    configuration is loaded. -/
theorem createEmbedding_outcomes_loaded (fl : Float32 F) (env : Env F) (t : String)
    (rest : List String) (hcfg : env.LoadDefaultConfig = .ok ()) :
    (∀ err, env.InvokeModel (Load.invokeInput t) = .error err →
      (Load.CreateEmbedding fl env (t :: rest)).outcome = .ret ([], some err) ∧
      (QueryImage.CreateEmbedding fl env (t :: rest)).outcome = .ret ([], some err)) ∧
    (∀ err, env.InvokeModel (QueryText.invokeInput t) = .error err →
      (QueryText.CreateEmbedding fl env (t :: rest)).outcome = .ret ([], some err)) ∧
    (∀ result err, env.InvokeModel (Load.invokeInput t) = .ok result →
      jsonUnmarshal fl result.Body = .error err →
      (Load.CreateEmbedding fl env (t :: rest)).outcome = .ret ([], some err) ∧
      (QueryImage.CreateEmbedding fl env (t :: rest)).outcome = .ret ([], some err)) ∧
    (∀ result err, env.InvokeModel (QueryText.invokeInput t) = .ok result →
      jsonUnmarshal fl result.Body = .error err →
      (QueryText.CreateEmbedding fl env (t :: rest)).outcome = .ret ([], some err)) ∧
    (∃ err, jsonUnmarshal fl .malformed = .error err) ∧
    (∀ vs err,
      ((Load.CreateEmbedding fl env (t :: rest)).outcome = .ret (vs, some err) ∨
       (QueryImage.CreateEmbedding fl env (t :: rest)).outcome = .ret (vs, some err) ∨
       (QueryText.CreateEmbedding fl env (t :: rest)).outcome = .ret (vs, some err)) → vs = []) ∧
    (∀ vs,
      ((Load.CreateEmbedding fl env (t :: rest)).outcome = .ret (vs, none) ∨
       (QueryImage.CreateEmbedding fl env (t :: rest)).outcome = .ret (vs, none)) →
      ∃ result response, env.InvokeModel (Load.invokeInput t) = .ok result ∧
        jsonUnmarshal fl result.Body = .ok response ∧ vs = [response.Embedding]) ∧
    (∀ vs, (QueryText.CreateEmbedding fl env (t :: rest)).outcome = .ret (vs, none) →
      ∃ result response, env.InvokeModel (QueryText.invokeInput t) = .ok result ∧
        jsonUnmarshal fl result.Body = .ok response ∧ vs = [response.Embedding]) := by
  have himg : QueryImage.invokeInput t = Load.invokeInput t := rfl
  have hL := Load.loadCreateEmbedding_outcome fl env t rest hcfg
  have hI := QueryImage.queryImageCreateEmbedding_outcome fl env t rest hcfg
  have hT := QueryText.queryTextCreateEmbedding_outcome fl env t rest hcfg
  rw [himg] at hI
  refine ⟨?_, ?_, ?_, ?_, ⟨_, rfl⟩, ?_, ?_, ?_⟩
  · intro err h
    simp only [h, false_and, exists_false, or_false, exists_const, Except.error.injEq,
      exists_eq_left, reduceCtorEq, exists_eq_left'] at hL hI
    exact ⟨hL, hI⟩
  · intro err h
    simp only [h, false_and, exists_false, or_false, exists_const, Except.error.injEq,
      exists_eq_left, reduceCtorEq, exists_eq_left'] at hT
    exact hT
  · intro result err h hd
    simp only [h, false_and, exists_false, false_or, reduceCtorEq, Except.ok.injEq] at hL hI
    rcases hL with ⟨r, e, hr, he, ho⟩ | ⟨r, e, hr, he, -⟩ <;> subst hr <;> rw [hd] at he
    · rcases hI with ⟨r, e2, hr, he2, ho2⟩ | ⟨r, e2, hr, he2, -⟩ <;> subst hr <;> rw [hd] at he2
      · cases he; cases he2; exact ⟨ho, ho2⟩
      · cases he2
    · cases he
  · intro result err h hd
    simp only [h, false_and, exists_false, false_or, reduceCtorEq, Except.ok.injEq] at hT
    rcases hT with ⟨r, e, hr, he, ho⟩ | ⟨r, e, hr, he, -⟩ <;> subst hr <;> rw [hd] at he
    · cases he; exact ho
    · cases he
  · intro vs err h
    rcases h with h | h | h
    · rcases hL with ⟨e, -, ho⟩ | ⟨r, e, -, -, ho⟩ | ⟨r, e, -, -, ho⟩ <;> rw [ho] at h <;> cases h <;> rfl
    · rcases hI with ⟨e, -, ho⟩ | ⟨r, e, -, -, ho⟩ | ⟨r, e, -, -, ho⟩ <;> rw [ho] at h <;> cases h <;> rfl
    · rcases hT with ⟨e, -, ho⟩ | ⟨r, e, -, -, ho⟩ | ⟨r, e, -, -, ho⟩ <;> rw [ho] at h <;> cases h <;> rfl
  · intro vs h
    rcases h with h | h
    · rcases hL with ⟨e, -, ho⟩ | ⟨r, e, -, -, ho⟩ | ⟨r, e, hr, he, ho⟩ <;> rw [ho] at h <;> cases h
      exact ⟨r, e, hr, he, rfl⟩
    · rcases hI with ⟨e, -, ho⟩ | ⟨r, e, -, -, ho⟩ | ⟨r, e, hr, he, ho⟩ <;> rw [ho] at h <;> cases h
      exact ⟨r, e, hr, he, rfl⟩
  · intro vs h
    rcases hT with ⟨e, -, ho⟩ | ⟨r, e, -, -, ho⟩ | ⟨r, e, hr, he, ho⟩ <;> rw [ho] at h <;> cases h
    exact ⟨r, e, hr, he, rfl⟩

/-- Without a loaded configuration no `CreateEmbedding` returns. -/
theorem createEmbedding_not_loaded (fl : Float32 F) (env : Env F) (t : String)
    (rest : List String) (e : Err) (hcfg : env.LoadDefaultConfig = .error e) :
    (Load.CreateEmbedding fl env (t :: rest)).outcome = .fatal e ∧
    (QueryImage.CreateEmbedding fl env (t :: rest)).outcome = .fatal e ∧
    (QueryText.CreateEmbedding fl env (t :: rest)).outcome = .fatal e := by
  rw [Load.loadCreateEmbedding_cons, QueryImage.queryImageCreateEmbedding_cons,
    QueryText.queryTextCreateEmbedding_cons]
  simp only [hcfg, and_self]

/-- C3, as stated, fails: a body that is `null`, an object holding only a
    `message`, an object with `null` under `embedding`, or an object with the
    array `[null]` under `embedding` is not a JSON object with a float array
    under `embedding`, yet for each of them `CreateEmbedding` returns a vector
    with a nil error. -/
theorem createEmbedding_undecodable_body_counterexample :
    (Load.CreateEmbedding intFloat32 nullBodyEnv ["TWFu"]).outcome = .ret ([[]], none) ∧
    (QueryImage.CreateEmbedding intFloat32 errorEnvelopeEnv ["TWFu"]).outcome =
      .ret ([[]], none) ∧
    (QueryText.CreateEmbedding intFloat32 nullEmbeddingEnv ["a cat"]).outcome =
      .ret ([[]], none) ∧
    (Load.CreateEmbedding intFloat32 nullElementEnv ["TWFu"]).outcome = .ret ([[0]], none) :=
  ⟨rfl, rfl, rfl, rfl⟩

/-- C3, amended: on a non-empty input, once the configuration is loaded, each
    `CreateEmbedding` returns the invocation's error with no vector when
    `InvokeModel` fails, and returns the decoder's error with no vector when
    `json.Unmarshal` of the body into `Response` fails. The decoder fails
    exactly on the bodies that are not accepted: bytes that are not JSON, a
    JSON value other than `null` or an object, and an object in which some
    member whose key is `embedding` up to letter case holds anything but
    `null` or an array of `null`s and convertible numbers. No function ever
    returns a vector next to an error, and a vector with a nil error is
    returned only when the configuration loaded, the invocation succeeded and
    the body was accepted, the vector being the decoded one. -/
theorem createEmbedding_error_propagation (fl : Float32 F) (env : Env F) (t : String)
    (rest : List String) :
    (∀ err, env.LoadDefaultConfig = .ok () →
      env.InvokeModel (Load.invokeInput t) = .error err →
      (Load.CreateEmbedding fl env (t :: rest)).outcome = .ret ([], some err) ∧
      (QueryImage.CreateEmbedding fl env (t :: rest)).outcome = .ret ([], some err)) ∧
    (∀ err, env.LoadDefaultConfig = .ok () →
      env.InvokeModel (QueryText.invokeInput t) = .error err →
      (QueryText.CreateEmbedding fl env (t :: rest)).outcome = .ret ([], some err)) ∧
    (∀ result err, env.LoadDefaultConfig = .ok () →
      env.InvokeModel (Load.invokeInput t) = .ok result →
      jsonUnmarshal fl result.Body = .error err →
      (Load.CreateEmbedding fl env (t :: rest)).outcome = .ret ([], some err) ∧
      (QueryImage.CreateEmbedding fl env (t :: rest)).outcome = .ret ([], some err)) ∧
    (∀ result err, env.LoadDefaultConfig = .ok () →
      env.InvokeModel (QueryText.invokeInput t) = .ok result →
      jsonUnmarshal fl result.Body = .error err →
      (QueryText.CreateEmbedding fl env (t :: rest)).outcome = .ret ([], some err)) ∧
    (∀ body, (∃ err, jsonUnmarshal fl body = .error err) ↔ bodyAccepted fl body = false) ∧
    (∀ body, (∃ response, jsonUnmarshal fl body = .ok response) ↔
      bodyAccepted fl body = true) ∧
    (∀ vs err,
      ((Load.CreateEmbedding fl env (t :: rest)).outcome = .ret (vs, some err) ∨
       (QueryImage.CreateEmbedding fl env (t :: rest)).outcome = .ret (vs, some err) ∨
       (QueryText.CreateEmbedding fl env (t :: rest)).outcome = .ret (vs, some err)) → vs = []) ∧
    (∀ vs,
      ((Load.CreateEmbedding fl env (t :: rest)).outcome = .ret (vs, none) ∨
       (QueryImage.CreateEmbedding fl env (t :: rest)).outcome = .ret (vs, none)) →
      env.LoadDefaultConfig = .ok () ∧
      ∃ result response, env.InvokeModel (Load.invokeInput t) = .ok result ∧
        bodyAccepted fl result.Body = true ∧
        jsonUnmarshal fl result.Body = .ok response ∧ vs = [response.Embedding]) ∧
    (∀ vs, (QueryText.CreateEmbedding fl env (t :: rest)).outcome = .ret (vs, none) →
      env.LoadDefaultConfig = .ok () ∧
      ∃ result response, env.InvokeModel (QueryText.invokeInput t) = .ok result ∧
        bodyAccepted fl result.Body = true ∧
        jsonUnmarshal fl result.Body = .ok response ∧ vs = [response.Embedding]) := by
  cases hcfg : env.LoadDefaultConfig with
  | error e =>
    obtain ⟨hL, hI, hT⟩ := createEmbedding_not_loaded fl env t rest e hcfg
    refine ⟨?_, ?_, ?_, ?_, jsonUnmarshal_error_iff fl, jsonUnmarshal_ok_iff fl, ?_, ?_, ?_⟩
    · intro _ h; cases h
    · intro _ h; cases h
    · intro _ _ h; cases h
    · intro _ _ h; cases h
    · intro vs err h
      rw [hL, hI, hT] at h
      rcases h with h | h | h <;> cases h
    · intro vs h
      rw [hL, hI] at h
      rcases h with h | h <;> cases h
    · intro vs h
      rw [hT] at h
      cases h
  | ok u =>
    have hcfg : env.LoadDefaultConfig = .ok () := hcfg
    have h := createEmbedding_outcomes_loaded fl env t rest hcfg
    refine ⟨fun err _ => h.1 err, fun err _ => h.2.1 err, fun result err _ => h.2.2.1 result err,
      fun result err _ => h.2.2.2.1 result err, jsonUnmarshal_error_iff fl,
      jsonUnmarshal_ok_iff fl, h.2.2.2.2.2.1, ?_, ?_⟩
    · intro vs hv
      obtain ⟨result, response, hr, hd, hvs⟩ := h.2.2.2.2.2.2.1 vs hv
      exact ⟨rfl, result, response, hr, (jsonUnmarshal_ok_iff fl _).1 ⟨response, hd⟩, hd, hvs⟩
    · intro vs hv
      obtain ⟨result, response, hr, hd, hvs⟩ := h.2.2.2.2.2.2.2 vs hv
      exact ⟨rfl, result, response, hr, (jsonUnmarshal_ok_iff fl _).1 ⟨response, hd⟩, hd, hvs⟩

theorem createEmbedding_error_propagation_witness :
    ((Load.CreateEmbedding intFloat32 throttledEnv ["TWFu"]).outcome =
        .ret ([], some "ThrottlingException") ∧
      (QueryImage.CreateEmbedding intFloat32 throttledEnv ["TWFu"]).outcome =
        .ret ([], some "ThrottlingException")) ∧
    (QueryText.CreateEmbedding intFloat32 garbledEnv ["a cat"]).outcome =
      .ret ([], some "invalid character looking for beginning of value") ∧
    ((Load.CreateEmbedding intFloat32 stringEmbeddingEnv ["TWFu"]).outcome =
        .ret ([], some (unmarshalTypeError (.string "none")
          "struct field Response.embedding of type []float32")) ∧
      (QueryImage.CreateEmbedding intFloat32 stringEmbeddingEnv ["TWFu"]).outcome =
        .ret ([], some (unmarshalTypeError (.string "none")
          "struct field Response.embedding of type []float32"))) ∧
    (sampleEnv.LoadDefaultConfig = .ok () ∧
      ∃ result response, sampleEnv.InvokeModel (Load.invokeInput "TWFu") = .ok result ∧
        bodyAccepted intFloat32 result.Body = true ∧
        jsonUnmarshal intFloat32 result.Body = .ok response ∧
        [[(1 : Int)]] = [response.Embedding]) :=
  ⟨(createEmbedding_error_propagation intFloat32 throttledEnv "TWFu" []).1
      "ThrottlingException" rfl rfl,
    (createEmbedding_error_propagation intFloat32 garbledEnv "a cat" []).2.2.2.1
      { Body := .malformed } "invalid character looking for beginning of value" rfl rfl rfl,
    (createEmbedding_error_propagation intFloat32 stringEmbeddingEnv "TWFu" []).2.2.1
      { Body := .json (.object [("embedding", .string "none")]) }
      (unmarshalTypeError (.string "none") "struct field Response.embedding of type []float32")
      rfl rfl rfl,
    (createEmbedding_error_propagation intFloat32 sampleEnv "TWFu" []).2.2.2.2.2.2.2.1
      [[1]] (Or.inl rfl)⟩

/-- C9: `CreateEmbedding` reads only `texts[0]`. Two input lists with the same
    first element give the same run in the same environment; every result
    returned with a nil error is a list of exactly one vector, so for an input
    of two or more texts the number of vectors differs from the number of
    texts; and on the empty input the index expression panics, with no event
    and no result. -/
theorem createEmbedding_reads_first_only (fl : Float32 F) (env : Env F) :
    (∀ t rest1 rest2,
      Load.CreateEmbedding fl env (t :: rest1) = Load.CreateEmbedding fl env (t :: rest2) ∧
      QueryImage.CreateEmbedding fl env (t :: rest1) =
        QueryImage.CreateEmbedding fl env (t :: rest2) ∧
      QueryText.CreateEmbedding fl env (t :: rest1) =
        QueryText.CreateEmbedding fl env (t :: rest2)) ∧
    (∀ texts vs,
      ((Load.CreateEmbedding fl env texts).outcome = .ret (vs, none) ∨
       (QueryImage.CreateEmbedding fl env texts).outcome = .ret (vs, none) ∨
       (QueryText.CreateEmbedding fl env texts).outcome = .ret (vs, none)) →
      vs.length = 1 ∧ (2 ≤ texts.length → vs.length ≠ texts.length)) ∧
    (Load.CreateEmbedding fl env []).trace = [] ∧
    (QueryImage.CreateEmbedding fl env []).trace = [] ∧
    (QueryText.CreateEmbedding fl env []).trace = [] ∧
    (∃ msg, (Load.CreateEmbedding fl env []).outcome = .panicked msg) ∧
    (∃ msg, (QueryImage.CreateEmbedding fl env []).outcome = .panicked msg) ∧
    (∃ msg, (QueryText.CreateEmbedding fl env []).outcome = .panicked msg) := by
  refine ⟨?_, ?_, rfl, rfl, rfl, ⟨_, rfl⟩, ⟨_, rfl⟩, ⟨_, rfl⟩⟩
  · intro t rest1 rest2
    simp only [Load.loadCreateEmbedding_cons, QueryImage.queryImageCreateEmbedding_cons,
      QueryText.queryTextCreateEmbedding_cons, and_self]
  · intro texts vs h
    have hlen : vs.length = 1 := by
      cases texts with
      | nil =>
        rw [Load.loadCreateEmbedding_nil, QueryImage.queryImageCreateEmbedding_nil,
          QueryText.queryTextCreateEmbedding_nil] at h
        simp at h
      | cons t rest =>
        rw [Load.loadCreateEmbedding_cons, QueryImage.queryImageCreateEmbedding_cons,
          QueryText.queryTextCreateEmbedding_cons] at h
        cases hcfg : env.LoadDefaultConfig with
        | error e => simp [hcfg] at h
        | ok u =>
          have hL := Load.loadCreateEmbedding_outcome fl env t rest hcfg
          have hI := QueryImage.queryImageCreateEmbedding_outcome fl env t rest hcfg
          have hT := QueryText.queryTextCreateEmbedding_outcome fl env t rest hcfg
          rw [Load.loadCreateEmbedding_cons] at hL
          rw [QueryImage.queryImageCreateEmbedding_cons] at hI
          rw [QueryText.queryTextCreateEmbedding_cons] at hT
          rcases h with h | h | h
          · rcases hL with ⟨e, -, ho⟩ | ⟨r, e, -, -, ho⟩ | ⟨r, e, -, -, ho⟩ <;>
              rw [ho] at h <;> cases h
            rfl
          · rcases hI with ⟨e, -, ho⟩ | ⟨r, e, -, -, ho⟩ | ⟨r, e, -, -, ho⟩ <;>
              rw [ho] at h <;> cases h
            rfl
          · rcases hT with ⟨e, -, ho⟩ | ⟨r, e, -, -, ho⟩ | ⟨r, e, -, -, ho⟩ <;>
              rw [ho] at h <;> cases h
            rfl
    exact ⟨hlen, fun h2 => by omega⟩

theorem createEmbedding_reads_first_only_witness :
    ([[1]] : List (List Int)).length = 1 ∧
    ((2 : Nat) ≤ ["a cat", "a dog", "a bird"].length →
      ([[1]] : List (List Int)).length ≠ ["a cat", "a dog", "a bird"].length) :=
  (createEmbedding_reads_first_only intFloat32 sampleEnv).2.1 ["a cat", "a dog", "a bird"] [[1]]
    (Or.inr (Or.inr rfl))

end CreateEmbedding

/-! ## `imageToBase64String` and `imageToLangchainDoc` -/

section Images
variable {F : Type}

/-- C4: `imageToBase64String` issues `http.Get` on `s` exactly when `s`
    contains `http` as a substring and otherwise reads `s` as a file, and does
    nothing else; when the bytes are obtained the result is their standard
    base64 encoding with a nil error, so both routes give the same result for
    equal bytes; when the fetch, the body read or the file read fails the
    result is the empty string with that error. -/
theorem imageToBase64String_routes (env : Env F) (s : String) :
    (Contains s "http" = true ↔ "http".toList <:+: s.toList) ∧
    (QueryImage.imageToBase64String env s).trace =
      (if Contains s "http" = true then [.Get s] else [.ReadFile s]) ∧
    (∀ resp b, Contains s "http" = true → env.Get s = .ok resp → resp.Body = .ok b →
      (QueryImage.imageToBase64String env s).outcome = .ret (EncodeToString b, none)) ∧
    (∀ b, Contains s "http" = false → env.ReadFile s = .ok b →
      (QueryImage.imageToBase64String env s).outcome = .ret (EncodeToString b, none)) ∧
    (∀ s2 resp b, Contains s "http" = true → env.Get s = .ok resp → resp.Body = .ok b →
      Contains s2 "http" = false → env.ReadFile s2 = .ok b →
      (QueryImage.imageToBase64String env s).outcome =
        (QueryImage.imageToBase64String env s2).outcome) ∧
    (∀ err, Contains s "http" = true → env.Get s = .error err →
      (QueryImage.imageToBase64String env s).outcome = .ret ("", some err)) ∧
    (∀ resp err, Contains s "http" = true → env.Get s = .ok resp → resp.Body = .error err →
      (QueryImage.imageToBase64String env s).outcome = .ret ("", some err)) ∧
    (∀ err, Contains s "http" = false → env.ReadFile s = .error err →
      (QueryImage.imageToBase64String env s).outcome = .ret ("", some err)) := by
  have hget : ∀ resp b, Contains s "http" = true → env.Get s = .ok resp → resp.Body = .ok b →
      (QueryImage.imageToBase64String env s).outcome = .ret (EncodeToString b, none) := by
    intro resp b hc hg hb
    simp [QueryImage.imageToBase64String, hc, hg, hb, bind_eq, pure_eq, Prog.bind, step]
  have hread : ∀ (s : String) b, Contains s "http" = false → env.ReadFile s = .ok b →
      (QueryImage.imageToBase64String env s).outcome = .ret (EncodeToString b, none) := by
    intro s b hc hr
    simp [QueryImage.imageToBase64String, hc, hr, bind_eq, pure_eq, Prog.bind, step]
  refine ⟨Contains_iff s "http", ?_, hget, hread s, ?_, ?_, ?_, ?_⟩
  · cases hc : Contains s "http"
    · simp only [QueryImage.imageToBase64String, hc, bind_eq, pure_eq, Prog.bind, step]
      cases env.ReadFile s <;> simp
    · simp only [QueryImage.imageToBase64String, hc, bind_eq, pure_eq, Prog.bind, step]
      cases env.Get s with
      | error e => simp
      | ok resp => cases hb : resp.Body <;> simp [hb]
  · intro s2 resp b hc hg hb hc2 hr
    rw [hget resp b hc hg hb, hread s2 b hc2 hr]
  · intro err hc hg
    simp [QueryImage.imageToBase64String, hc, hg, bind_eq, pure_eq, Prog.bind, step]
  · intro resp err hc hg hb
    simp [QueryImage.imageToBase64String, hc, hg, hb, bind_eq, pure_eq, Prog.bind, step]
  · intro err hc hr
    simp [QueryImage.imageToBase64String, hc, hr, bind_eq, pure_eq, Prog.bind, step]

theorem imageToBase64String_routes_witness :
    (QueryImage.imageToBase64String sampleEnv "http://example.com/cat.jpg").outcome =
      .ret ("TWFu", none) ∧
    (QueryImage.imageToBase64String sampleEnv "sample_images/a.jpg").outcome =
      .ret ("TWFu", none) ∧
    (QueryImage.imageToBase64String sampleEnv "http://example.com/cat.jpg").outcome =
      (QueryImage.imageToBase64String sampleEnv "sample_images/a.jpg").outcome ∧
    (QueryImage.imageToBase64String sampleEnv "http://example.com/dog.jpg").outcome =
      .ret ("", some "Get: no such host") ∧
    (QueryImage.imageToBase64String sampleEnv "sample_images/c.jpg").outcome =
      .ret ("", some "open: no such file or directory") :=
  ⟨(imageToBase64String_routes sampleEnv "http://example.com/cat.jpg").2.2.1
      { StatusCode := 404, Body := .ok [77, 97, 110] } [77, 97, 110] (by decide) rfl rfl,
    (imageToBase64String_routes sampleEnv "sample_images/a.jpg").2.2.2.1
      [77, 97, 110] (by decide) rfl,
    (imageToBase64String_routes sampleEnv "http://example.com/cat.jpg").2.2.2.2.1
      "sample_images/a.jpg" { StatusCode := 404, Body := .ok [77, 97, 110] } [77, 97, 110]
      (by decide) rfl rfl (by decide) rfl,
    (imageToBase64String_routes sampleEnv "http://example.com/dog.jpg").2.2.2.2.2.1
      "Get: no such host" (by decide) rfl,
    (imageToBase64String_routes sampleEnv "sample_images/c.jpg").2.2.2.2.2.2.2
      "open: no such file or directory" (by decide) rfl⟩

/-- C10: for a query string containing `http`, `imageToBase64String` does not
    look at the status code: whenever a response was received and its body
    read, whatever its status (404 or 500 as well as 200), the result is the
    base64 encoding of the body with a nil error. -/
theorem imageToBase64String_ignores_status (env : Env F) (s : String) (code : Int)
    (b : List Byte) (hc : Contains s "http" = true)
    (hg : env.Get s = .ok { StatusCode := code, Body := .ok b }) :
    QueryImage.imageToBase64String env s =
      { trace := [.Get s], outcome := .ret (EncodeToString b, none) } := by
  simp [QueryImage.imageToBase64String, hc, hg, bind_eq, pure_eq, Prog.bind, step]

theorem imageToBase64String_ignores_status_witness :
    QueryImage.imageToBase64String sampleEnv "http://example.com/cat.jpg" =
      { trace := [.Get "http://example.com/cat.jpg"], outcome := .ret ("TWFu", none) } :=
  imageToBase64String_ignores_status sampleEnv "http://example.com/cat.jpg" 404 [77, 97, 110]
    (by decide) rfl

/-- C6: when the read of `path` succeeds with bytes `b`, `imageToLangchainDoc`
    returns, with a nil error, the Document whose content is the standard
    base64 encoding of `b` (which decodes back to `b`), whose metadata is the
    one-entry map from `source` to `path`, and whose only other field, the
    score, is zero: a Document has no embedding field. When the read fails it
    returns the zero Document with the error. It does nothing but the read. -/
theorem imageToLangchainDoc_builds_document (fl : Float32 F) (env : Env F) (path : String) :
    (Load.imageToLangchainDoc fl env path).trace = [.ReadFile path] ∧
    (∀ b, env.ReadFile path = .ok b →
      (Load.imageToLangchainDoc fl env path).outcome =
        .ret ({ PageContent := EncodeToString b, Metadata := [("source", .string path)],
                Score := fl.zero }, none) ∧
      DecodeString (EncodeToString b) = some b) ∧
    (∀ err, env.ReadFile path = .error err →
      (Load.imageToLangchainDoc fl env path).outcome =
        .ret ({ PageContent := "", Metadata := [], Score := fl.zero }, some err)) := by
  refine ⟨?_, ?_, ?_⟩
  · simp only [Load.imageToLangchainDoc, bind_eq, pure_eq, Prog.bind, step]
    cases env.ReadFile path <;> simp
  · intro b hr
    refine ⟨?_, DecodeString_EncodeToString b⟩
    simp [Load.imageToLangchainDoc, hr, bind_eq, pure_eq, Prog.bind, step]
  · intro err hr
    simp [Load.imageToLangchainDoc, hr, bind_eq, pure_eq, Prog.bind, step, Document.empty]

theorem imageToLangchainDoc_builds_document_witness :
    ((Load.imageToLangchainDoc intFloat32 sampleEnv "sample_images/a.jpg").outcome =
        .ret ({ PageContent := "TWFu", Metadata := [("source", .string "sample_images/a.jpg")],
                Score := 0 }, none) ∧
      DecodeString "TWFu" = some [77, 97, 110]) ∧
    (Load.imageToLangchainDoc intFloat32 sampleEnv "sample_images/c.jpg").outcome =
      .ret ({ PageContent := "", Metadata := [], Score := 0 },
        some "open: no such file or directory") :=
  ⟨(imageToLangchainDoc_builds_document intFloat32 sampleEnv "sample_images/a.jpg").2.1
      [77, 97, 110] rfl,
    (imageToLangchainDoc_builds_document intFloat32 sampleEnv "sample_images/c.jpg").2.2
      "open: no such file or directory" rfl⟩

end Images

/-! ## The ingestion run (`load/main.go`) -/

section Ingestion
variable {F : Type}

/-- The callback of the walk, as one expression in the answers of the
    environment. -/
theorem Load.walkFn_eq (fl : Float32 F) (env : Env F) (e : WalkEntry) :
    Load.walkFn fl env e =
      match e.err with
      | some err => { trace := [], outcome := .ret (some err) }
      | none =>
          if e.isDir = true then { trace := [], outcome := .ret none }
          else
            match env.ReadFile e.path with
            | .error err => { trace := [.ReadFile e.path], outcome := .fatal err }
            | .ok b =>
                match env.AddDocuments [Load.documentOf fl e.path b] with
                | .error err =>
                    { trace := [.ReadFile e.path, .AddDocuments [Load.documentOf fl e.path b]],
                      outcome := .fatal err }
                | .ok _ =>
                    { trace := [.ReadFile e.path, .AddDocuments [Load.documentOf fl e.path b],
                        .Println [.str "successfully loaded", .str e.path,
                          .str "into vector store"]],
                      outcome := .ret none } := by
  unfold Load.walkFn
  cases e.err with
  | some err => rfl
  | none =>
    cases e.isDir with
    | true => rfl
    | false =>
      simp only [Load.load, Load.imageToLangchainDoc, Load.documentOf, bind_eq, pure_eq,
        Prog.bind, step, logFatal, Bool.not_false, if_true, Bool.false_eq_true, if_false]
      cases h1 : env.ReadFile e.path with
      | error err => simp
      | ok b =>
        simp only []
        cases h2 : env.AddDocuments
          [{ PageContent := EncodeToString b, Metadata := [("source", .string e.path)],
             Score := fl.zero }] with
        | error err => simp [h2]
        | ok ids => simp [h2]

/-- The callback never panics and never returns anything else than nil, an
    error, or a fatal exit. -/
theorem Load.walkFn_outcome (fl : Float32 F) (env : Env F) (e : WalkEntry) :
    (Load.walkFn fl env e).outcome = .ret none ∨
    (∃ err, (Load.walkFn fl env e).outcome = .ret (some err)) ∨
    (∃ err, (Load.walkFn fl env e).outcome = .fatal err) := by
  rw [Load.walkFn_eq]
  cases e.err with
  | some err => exact Or.inr (Or.inl ⟨err, rfl⟩)
  | none =>
    cases e.isDir with
    | true => exact Or.inl rfl
    | false =>
      simp only [Bool.false_eq_true, if_false]
      cases env.ReadFile e.path with
      | error err => exact Or.inr (Or.inr ⟨err, rfl⟩)
      | ok b =>
        simp only []
        cases env.AddDocuments [Load.documentOf fl e.path b] with
        | error err => exact Or.inr (Or.inr ⟨err, rfl⟩)
        | ok ids => exact Or.inl rfl

theorem filepathWalk_nil (fn : WalkEntry → Prog F (Option Err)) :
    filepathWalk [] fn = { trace := [], outcome := .ret none } := rfl

/-- A callback that returns nil lets the walk go on with the next entry. -/
theorem filepathWalk_cons_continue (fn : WalkEntry → Prog F (Option Err)) (e : WalkEntry)
    (rest : List WalkEntry) (h : (fn e).outcome = .ret none) :
    filepathWalk (e :: rest) fn =
      { trace := (fn e).trace ++ (filepathWalk rest fn).trace,
        outcome := (filepathWalk rest fn).outcome } := by
  rw [filepathWalk]
  simp only [bind_eq, Prog.bind, h]

/-- A callback that returns an error stops the walk, which returns that error. -/
theorem filepathWalk_cons_error (fn : WalkEntry → Prog F (Option Err)) (e : WalkEntry)
    (rest : List WalkEntry) (err : Err) (h : (fn e).outcome = .ret (some err)) :
    filepathWalk (e :: rest) fn = { trace := (fn e).trace, outcome := .ret (some err) } := by
  rw [filepathWalk]
  simp only [bind_eq, Prog.bind, h, pure_eq, List.append_nil]

/-- A callback that exits the process ends the walk there. -/
theorem filepathWalk_cons_fatal (fn : WalkEntry → Prog F (Option Err)) (e : WalkEntry)
    (rest : List WalkEntry) (err : Err) (h : (fn e).outcome = .fatal err) :
    filepathWalk (e :: rest) fn = { trace := (fn e).trace, outcome := .fatal err } := by
  rw [filepathWalk]
  simp only [bind_eq, Prog.bind, h]

/-- A walk whose callback returns nil on every entry visits them all. -/
theorem filepathWalk_all (fn : WalkEntry → Prog F (Option Err)) (entries : List WalkEntry)
    (h : ∀ e ∈ entries, (fn e).outcome = .ret none) :
    filepathWalk entries fn =
      { trace := entries.flatMap fun e => (fn e).trace, outcome := .ret none } := by
  induction entries with
  | nil => rfl
  | cons e rest ih =>
    rw [filepathWalk_cons_continue fn e rest (h e (List.mem_cons_self _ _)),
      ih fun x hx => h x (List.mem_cons_of_mem _ hx)]
    simp only [List.flatMap_cons]

/-- A walk over entries on which the callback returns nil, followed by more
    entries, goes on with the latter. -/
theorem filepathWalk_append (fn : WalkEntry → Prog F (Option Err)) (pre rest : List WalkEntry)
    (h : ∀ e ∈ pre, (fn e).outcome = .ret none) :
    filepathWalk (pre ++ rest) fn =
      { trace := (pre.flatMap fun e => (fn e).trace) ++ (filepathWalk rest fn).trace,
        outcome := (filepathWalk rest fn).outcome } := by
  induction pre with
  | nil => simp
  | cons e pre ih =>
    rw [List.cons_append, filepathWalk_cons_continue fn e _ (h e (List.mem_cons_self _ _)),
      ih fun x hx => h x (List.mem_cons_of_mem _ hx)]
    simp only [List.flatMap_cons, List.append_assoc]

/-- The run of `main` in terms of the walk. -/
theorem Load.main_eq (fl : Float32 F) (env : Env F) :
    Load.main fl env =
      Prog.bind (filepathWalk (env.Walk "sample_images") (Load.walkFn fl env)) fun r =>
        match r with
        | some err => logFatal err
        | none => step (.Println [.str "data successfully loaded into vector store"]) () := by
  unfold Load.main
  simp only [bind_eq]

/-- The run of `main` when the callback returns nil on every entry. -/
theorem Load.main_all (fl : Float32 F) (env : Env F)
    (h : ∀ e ∈ env.Walk "sample_images", (Load.walkFn fl env e).outcome = .ret none) :
    Load.main fl env =
      { trace := ((env.Walk "sample_images").flatMap fun e => (Load.walkFn fl env e).trace) ++
          [.Println [.str "data successfully loaded into vector store"]],
        outcome := .ret () } := by
  rw [Load.main_eq, filepathWalk_all _ _ h]
  rfl

/-- The run of `main` when the callback first fails to return nil on `e`. -/
theorem Load.main_stop (fl : Float32 F) (env : Env F) (pre post : List WalkEntry)
    (e : WalkEntry) (hw : env.Walk "sample_images" = pre ++ e :: post)
    (hpre : ∀ x ∈ pre, (Load.walkFn fl env x).outcome = .ret none)
    (he : (Load.walkFn fl env e).outcome ≠ .ret none) :
    (Load.main fl env).trace =
      (pre.flatMap fun x => (Load.walkFn fl env x).trace) ++ (Load.walkFn fl env e).trace ∧
    ∃ err, (Load.main fl env).outcome = .fatal err := by
  rw [Load.main_eq, hw, filepathWalk_append _ _ _ hpre]
  rcases Load.walkFn_outcome fl env e with h | ⟨err, h⟩ | ⟨err, h⟩
  · exact absurd h he
  · rw [filepathWalk_cons_error _ _ _ err h]
    exact ⟨by simp [Prog.bind, logFatal], err, rfl⟩
  · rw [filepathWalk_cons_fatal _ _ _ err h]
    exact ⟨rfl, err, rfl⟩

/-- What one successful entry contributes to the trace. -/
theorem Load.walkFn_trace_of_ok (fl : Float32 F) (env : Env F) (e : WalkEntry)
    (h : (Load.walkFn fl env e).outcome = .ret none) :
    e.err = none ∧
    (e.isDir = true → (Load.walkFn fl env e).trace = []) ∧
    (e.isDir = false → ∃ b ids, env.ReadFile e.path = .ok b ∧
      env.AddDocuments [Load.documentOf fl e.path b] = .ok ids ∧
      (Load.walkFn fl env e).trace =
        [.ReadFile e.path, .AddDocuments [Load.documentOf fl e.path b],
          .Println [.str "successfully loaded", .str e.path, .str "into vector store"]]) := by
  rw [Load.walkFn_eq] at h ⊢
  cases herr : e.err with
  | some err => simp [herr] at h
  | none =>
    refine ⟨rfl, ?_, ?_⟩
    · intro hd; simp [hd]
    · intro hd
      simp only [herr, hd, Bool.false_eq_true, if_false] at h ⊢
      cases h1 : env.ReadFile e.path with
      | error err => simp [h1] at h
      | ok b =>
        simp only [h1] at h ⊢
        cases h2 : env.AddDocuments [Load.documentOf fl e.path b] with
        | error err => simp [h2] at h
        | ok ids => exact ⟨b, ids, rfl, h2, by simp only [h2]⟩

theorem readFiles_append (a b : List (Event F)) :
    readFiles (a ++ b) = readFiles a ++ readFiles b := by
  simp only [readFiles, List.filterMap_append]

theorem insertedDocuments_append (env : Env F) (a b : List (Event F)) :
    insertedDocuments env (a ++ b) = insertedDocuments env a ++ insertedDocuments env b := by
  simp only [insertedDocuments, List.flatMap_append]

/-- When the callback returns nil on every entry, the files read and the
    documents inserted are those of the non-directory entries, in order. -/
theorem Load.walk_trace_summary (fl : Float32 F) (env : Env F) (entries : List WalkEntry)
    (h : ∀ e ∈ entries, (Load.walkFn fl env e).outcome = .ret none) :
    readFiles (entries.flatMap fun e => (Load.walkFn fl env e).trace) =
      (entries.filter fun e => !e.isDir).map (fun e => e.path) ∧
    (insertedDocuments env (entries.flatMap fun e => (Load.walkFn fl env e).trace)).map
        (fun d => mapIndex d.Metadata "source") =
      (entries.filter fun e => !e.isDir).map (fun e => some (.string e.path)) := by
  induction entries with
  | nil => exact ⟨rfl, rfl⟩
  | cons e rest ih =>
    have ih := ih fun x hx => h x (List.mem_cons_of_mem _ hx)
    have he := Load.walkFn_trace_of_ok fl env e (h e (List.mem_cons_self _ _))
    rw [List.flatMap_cons, readFiles_append, insertedDocuments_append, List.map_append,
      ih.1, ih.2]
    cases hd : e.isDir with
    | true =>
      simp only [he.2.1 hd, List.filter_cons, hd, Bool.not_true, Bool.false_eq_true, if_false]
      exact ⟨rfl, rfl⟩
    | false =>
      obtain ⟨b, ids, hr, ha, htr⟩ := he.2.2 hd
      have h1 : readFiles (Load.walkFn fl env e).trace = [e.path] := by rw [htr]; rfl
      have h2 : insertedDocuments env (Load.walkFn fl env e).trace =
          [Load.documentOf fl e.path b] := by
        rw [htr]
        simp only [insertedDocuments, List.flatMap_cons, List.flatMap_nil, ha, List.nil_append,
          List.append_nil]
      rw [h1, h2]
      simp only [List.filter_cons, hd, Bool.not_false, if_true, List.map_cons, List.map_nil,
        List.singleton_append, Load.documentOf, mapIndex, List.lookup, beq_self_eq_true, and_self]

/-- The callback calls `load` on the path of a non-directory entry and does
    nothing on a directory. -/
theorem Load.walkFn_trace (fl : Float32 F) (env : Env F) (e : WalkEntry) (h : e.err = none) :
    (Load.walkFn fl env e).trace =
      if e.isDir = true then [] else (Load.load fl env e.path).trace := by
  unfold Load.walkFn
  rw [h]
  cases e.isDir with
  | true => rfl
  | false =>
    simp only [Bool.not_false, if_true, Bool.false_eq_true, if_false, bind_eq, Prog.bind, pure_eq]
    cases (Load.load fl env e.path).outcome <;> simp

/-- The callback returns nil exactly when the walk reports no error for the
    entry and the entry is a directory or a file that is read and stored. -/
theorem Load.walkFn_ok_iff (fl : Float32 F) (env : Env F) (e : WalkEntry) :
    (Load.walkFn fl env e).outcome = .ret none ↔
      e.err = none ∧ (e.isDir = false → ∃ b ids, env.ReadFile e.path = .ok b ∧
        env.AddDocuments [Load.documentOf fl e.path b] = .ok ids) := by
  constructor
  · intro h
    have := Load.walkFn_trace_of_ok fl env e h
    exact ⟨this.1, fun hd => by
      obtain ⟨b, ids, hr, ha, -⟩ := this.2.2 hd
      exact ⟨b, ids, hr, ha⟩⟩
  · rintro ⟨herr, hf⟩
    rw [Load.walkFn_eq, herr]
    cases hd : e.isDir with
    | true => rfl
    | false =>
      obtain ⟨b, ids, hr, ha⟩ := hf hd
      simp only [Bool.false_eq_true, if_false, hr, ha]

/-- C5: when the walk reports no error and every non-directory entry is read
    and stored without error, the run of `main` returns; its trace is the
    trace of `load` on each non-directory entry, once each and in walk order,
    followed by the success message, so directories contribute nothing; the
    files read are exactly those entries; and the documents inserted are as
    many as those entries, the i-th having the i-th path under `source`. -/
theorem ingestion_one_document_per_file (fl : Float32 F) (env : Env F)
    (hwalk : ∀ e ∈ env.Walk "sample_images", e.err = none)
    (hfiles : ∀ e ∈ env.Walk "sample_images", e.isDir = false →
      ∃ b ids, env.ReadFile e.path = .ok b ∧
        env.AddDocuments [Load.documentOf fl e.path b] = .ok ids) :
    (Load.main fl env).outcome = .ret () ∧
    (Load.main fl env).trace =
      (((env.Walk "sample_images").filter fun e => !e.isDir).flatMap fun e =>
          (Load.load fl env e.path).trace) ++
        [.Println [.str "data successfully loaded into vector store"]] ∧
    readFiles (Load.main fl env).trace =
      ((env.Walk "sample_images").filter fun e => !e.isDir).map (fun e => e.path) ∧
    (insertedDocuments env (Load.main fl env).trace).length =
      ((env.Walk "sample_images").filter fun e => !e.isDir).length ∧
    (insertedDocuments env (Load.main fl env).trace).map (fun d => mapIndex d.Metadata "source") =
      ((env.Walk "sample_images").filter fun e => !e.isDir).map
        (fun e => some (.string e.path)) := by
  have hok : ∀ e ∈ env.Walk "sample_images", (Load.walkFn fl env e).outcome = .ret none :=
    fun e he => (Load.walkFn_ok_iff fl env e).2 ⟨hwalk e he, hfiles e he⟩
  have hsum := Load.walk_trace_summary fl env _ hok
  have htrace : ∀ entries : List WalkEntry, (∀ e ∈ entries, e.err = none) →
      (entries.flatMap fun e => (Load.walkFn fl env e).trace) =
        (entries.filter fun e => !e.isDir).flatMap fun e => (Load.load fl env e.path).trace := by
    intro entries
    induction entries with
    | nil => intro _; rfl
    | cons e rest ih =>
      intro h
      rw [List.flatMap_cons, ih fun x hx => h x (List.mem_cons_of_mem _ hx),
        Load.walkFn_trace fl env e (h e (List.mem_cons_self _ _))]
      cases hd : e.isDir <;> simp [List.filter_cons, hd]
  have hins : insertedDocuments env (Load.main fl env).trace =
      insertedDocuments env
        ((env.Walk "sample_images").flatMap fun e => (Load.walkFn fl env e).trace) := by
    rw [Load.main_all fl env hok, insertedDocuments_append]
    simp [insertedDocuments]
  refine ⟨?_, ?_, ?_, ?_, ?_⟩
  · rw [Load.main_all fl env hok]
  · rw [Load.main_all fl env hok, htrace _ hwalk]
  · rw [Load.main_all fl env hok, readFiles_append, hsum.1]
    simp [readFiles]
  · have := congrArg List.length hsum.2
    rw [hins]
    simpa using this
  · rw [hins, hsum.2]

theorem ingestion_one_document_per_file_witness :
    (Load.main intFloat32 sampleEnv).outcome = .ret () ∧
    readFiles (Load.main intFloat32 sampleEnv).trace =
      ["sample_images/a.jpg", "sample_images/b.jpg"] ∧
    (insertedDocuments sampleEnv (Load.main intFloat32 sampleEnv).trace).length = 2 ∧
    (insertedDocuments sampleEnv (Load.main intFloat32 sampleEnv).trace).map
        (fun d => mapIndex d.Metadata "source") =
      [some (.string "sample_images/a.jpg"), some (.string "sample_images/b.jpg")] := by
  have h := ingestion_one_document_per_file intFloat32 sampleEnv (by decide)
    (by
      intro e he hd
      have he : e ∈ [({ path := "sample_images", isDir := true, err := none } : WalkEntry),
          { path := "sample_images/a.jpg", isDir := false, err := none },
          { path := "sample_images/b.jpg", isDir := false, err := none }] := he
      simp only [List.mem_cons, List.mem_singleton, List.not_mem_nil, or_false] at he
      rcases he with rfl | rfl | rfl
      · cases hd
      · exact ⟨[77, 97, 110], [], rfl, rfl⟩
      · exact ⟨[77, 97], [], rfl, rfl⟩)
  exact ⟨h.1, h.2.2.1, h.2.2.2.1, h.2.2.2.2⟩

/-- The callback fails to return nil exactly when the walk reports an error
    for the entry, or the entry is a file whose read or insertion fails. -/
theorem Load.walkFn_fails_iff (fl : Float32 F) (env : Env F) (e : WalkEntry) :
    (Load.walkFn fl env e).outcome ≠ .ret none ↔
      (e.err ≠ none ∨ (e.isDir = false ∧ ((∃ err, env.ReadFile e.path = .error err) ∨
        ∃ b err, env.ReadFile e.path = .ok b ∧
          env.AddDocuments [Load.documentOf fl e.path b] = .error err))) := by
  rw [Load.walkFn_eq]
  cases herr : e.err with
  | some err => simp
  | none =>
    cases hd : e.isDir with
    | true => simp
    | false =>
      cases hr : env.ReadFile e.path with
      | error err => simp
      | ok b =>
        cases ha : env.AddDocuments [Load.documentOf fl e.path b] with
        | error err => simp [ha]
        | ok ids => simp [ha]

/-- A callback that fails to return nil has inserted nothing and has not
    printed the success message of `main`; no callback prints it. -/
theorem Load.walkFn_trace_facts (fl : Float32 F) (env : Env F) (e : WalkEntry) :
    ((Load.walkFn fl env e).outcome ≠ .ret none →
      insertedDocuments env (Load.walkFn fl env e).trace = []) ∧
    Event.Println [.str "data successfully loaded into vector store"] ∉
      (Load.walkFn fl env e).trace := by
  rw [Load.walkFn_eq]
  cases herr : e.err with
  | some err => simp [insertedDocuments]
  | none =>
    cases hd : e.isDir with
    | true => simp
    | false =>
      cases hr : env.ReadFile e.path with
      | error err => simp [insertedDocuments]
      | ok b =>
        cases ha : env.AddDocuments [Load.documentOf fl e.path b] with
        | error err => simp [insertedDocuments, ha]
        | ok ids => simp [ha]

/-- Every event of the walk is an event of the callback on some entry. -/
theorem Load.walk_trace_mem (fl : Float32 F) (env : Env F) (entries : List WalkEntry)
    (ev : Event F) (h : ev ∈ (filepathWalk entries (Load.walkFn fl env)).trace) :
    ∃ e ∈ entries, ev ∈ (Load.walkFn fl env e).trace := by
  induction entries with
  | nil => simp [filepathWalk_nil] at h
  | cons e rest ih =>
    rcases Load.walkFn_outcome fl env e with ho | ⟨err, ho⟩ | ⟨err, ho⟩
    · rw [filepathWalk_cons_continue _ _ _ ho] at h
      rcases List.mem_append.1 h with h | h
      · exact ⟨e, List.mem_cons_self _ _, h⟩
      · obtain ⟨x, hx, hm⟩ := ih h
        exact ⟨x, List.mem_cons_of_mem _ hx, hm⟩
    · rw [filepathWalk_cons_error _ _ _ err ho] at h
      exact ⟨e, List.mem_cons_self _ _, h⟩
    · rw [filepathWalk_cons_fatal _ _ _ err ho] at h
      exact ⟨e, List.mem_cons_self _ _, h⟩

/-- A walk that returns nil had its callback return nil on every entry. -/
theorem Load.walk_ok_all (fl : Float32 F) (env : Env F) (entries : List WalkEntry)
    (h : (filepathWalk entries (Load.walkFn fl env)).outcome = .ret none) :
    ∀ e ∈ entries, (Load.walkFn fl env e).outcome = .ret none := by
  induction entries with
  | nil => intro e he; cases he
  | cons e rest ih =>
    rcases Load.walkFn_outcome fl env e with ho | ⟨err, ho⟩ | ⟨err, ho⟩
    · rw [filepathWalk_cons_continue _ _ _ ho] at h
      intro x hx
      rcases List.mem_cons.1 hx with rfl | hx
      · exact ho
      · exact ih h x hx
    · rw [filepathWalk_cons_error _ _ _ err ho] at h
      cases h
    · rw [filepathWalk_cons_fatal _ _ _ err ho] at h
      cases h

/-- C7: the ingestion run is fail-fast. The callback of the walk fails to
    return nil on an entry exactly when the walk reports an error for it or it
    is a file whose read or insertion fails. If that happens first on `e`, the
    run ends with a fatal error; its trace is that of the entries before `e`
    followed by what was done on `e`, so nothing is read or inserted for an
    entry after `e`, nothing is inserted for `e`, and the success message is
    not printed. The run returns, or prints the success message, only if the
    callback returned nil on every entry. -/
theorem ingestion_fail_fast (fl : Float32 F) (env : Env F) :
    (∀ e, (Load.walkFn fl env e).outcome ≠ .ret none ↔
      (e.err ≠ none ∨ (e.isDir = false ∧ ((∃ err, env.ReadFile e.path = .error err) ∨
        ∃ b err, env.ReadFile e.path = .ok b ∧
          env.AddDocuments [Load.documentOf fl e.path b] = .error err)))) ∧
    (∀ pre e post, env.Walk "sample_images" = pre ++ e :: post →
      (∀ x ∈ pre, (Load.walkFn fl env x).outcome = .ret none) →
      (Load.walkFn fl env e).outcome ≠ .ret none →
      (∃ err, (Load.main fl env).outcome = .fatal err) ∧
      (Load.main fl env).trace =
        (pre.flatMap fun x => (Load.walkFn fl env x).trace) ++ (Load.walkFn fl env e).trace ∧
      readFiles (Load.main fl env).trace =
        (pre.filter fun x => !x.isDir).map (fun x => x.path) ++
          readFiles (Load.walkFn fl env e).trace ∧
      (insertedDocuments env (Load.main fl env).trace).map
          (fun d => mapIndex d.Metadata "source") =
        (pre.filter fun x => !x.isDir).map (fun x => some (.string x.path)) ∧
      Event.Println [.str "data successfully loaded into vector store"] ∉
        (Load.main fl env).trace) ∧
    ((Load.main fl env).outcome = .ret () →
      ∀ e ∈ env.Walk "sample_images", (Load.walkFn fl env e).outcome = .ret none) ∧
    (Event.Println [.str "data successfully loaded into vector store"] ∈
        (Load.main fl env).trace →
      ∀ e ∈ env.Walk "sample_images", (Load.walkFn fl env e).outcome = .ret none) := by
  refine ⟨Load.walkFn_fails_iff fl env, ?_, ?_, ?_⟩
  · intro pre e post hw hpre he
    obtain ⟨htr, herr⟩ := Load.main_stop fl env pre post e hw hpre he
    have hsum := Load.walk_trace_summary fl env pre hpre
    refine ⟨herr, htr, ?_, ?_, ?_⟩
    · rw [htr, readFiles_append, hsum.1]
    · rw [htr, insertedDocuments_append, (Load.walkFn_trace_facts fl env e).1 he,
        List.append_nil, hsum.2]
    · rw [htr]
      intro hmem
      rcases List.mem_append.1 hmem with hmem | hmem
      · obtain ⟨x, -, hx⟩ := List.mem_flatMap.1 hmem
        exact (Load.walkFn_trace_facts fl env x).2 hx
      · exact (Load.walkFn_trace_facts fl env e).2 hmem
  · intro h
    apply Load.walk_ok_all
    rw [Load.main_eq] at h
    revert h
    simp only [Prog.bind]
    cases ho : (filepathWalk (env.Walk "sample_images") (Load.walkFn fl env)).outcome with
    | ret r =>
      cases r with
      | none => intro _; rfl
      | some err => simp [logFatal]
    | fatal err => simp
    | panicked msg => simp
  · intro h
    apply Load.walk_ok_all
    rw [Load.main_eq] at h
    revert h
    simp only [Prog.bind]
    have hnot : Event.Println [.str "data successfully loaded into vector store"] ∉
        (filepathWalk (env.Walk "sample_images") (Load.walkFn fl env)).trace := by
      intro hmem
      obtain ⟨x, -, hx⟩ := Load.walk_trace_mem fl env _ _ hmem
      exact (Load.walkFn_trace_facts fl env x).2 hx
    cases ho : (filepathWalk (env.Walk "sample_images") (Load.walkFn fl env)).outcome with
    | ret r =>
      cases r with
      | none => intro _; rfl
      | some err => simp [logFatal, hnot]
    | fatal err => simp [hnot]
    | panicked msg => simp [hnot]

theorem ingestion_fail_fast_witness :
    (∃ err, (Load.main intFloat32 rejectingEnv).outcome = .fatal err) ∧
    (insertedDocuments rejectingEnv (Load.main intFloat32 rejectingEnv).trace).map
        (fun d => mapIndex d.Metadata "source") = [] ∧
    Event.Println [.str "data successfully loaded into vector store"] ∉
      (Load.main intFloat32 rejectingEnv).trace := by
  have h := (ingestion_fail_fast intFloat32 rejectingEnv).2.1
    [{ path := "sample_images", isDir := true, err := none }]
    { path := "sample_images/a.jpg", isDir := false, err := none }
    [{ path := "sample_images/b.jpg", isDir := false, err := none }] rfl
    (by intro x hx; rw [List.mem_singleton.1 hx]; rfl)
    (by
      rw [(ingestion_fail_fast intFloat32 rejectingEnv).1]
      exact Or.inr ⟨rfl, Or.inr ⟨[77, 97, 110], "pq: connection refused", rfl, rfl⟩⟩)
  exact ⟨h.1, h.2.2.2.1, h.2.2.2.2⟩

end Ingestion

/-! ## The query loops (`query_image/main.go`, `query_text/main.go`) -/

section Query
variable {F : Type}

/-- A `range` loop whose body is one recorded step records one event per
    element, in order, and returns. -/
theorem forRange_step {α : Type} (xs : List α) (f : α → Event F) :
    forRange xs (fun x => step (f x) ()) = { trace := xs.map f, outcome := .ret () } := by
  induction xs with
  | nil => rfl
  | cons x rest ih =>
    rw [forRange, ih]
    simp only [bind_eq, Prog.bind, step, List.map_cons, List.singleton_append]

/-- C8: for every sequence of results the store returns for one query, one
    pass of the query loop prints, between the header and the footer, exactly
    one line per result, in the order returned, each line holding that
    result's `Metadata["source"]` and `1 - Score`, and then returns; for the
    empty sequence it prints the header and the footer only. This holds for
    the text loop, and for the image loop once the image source is converted. -/
theorem query_prints_one_line_per_result (fl : Float32 F) (env : Env F) (line : String) :
    (∀ results, env.SimilaritySearch (TrimSpace line) 5 = .ok results →
      QueryText.mainLoopBody fl env line =
        { trace :=
            [.Print [.str "\nEnter your message: "], .SimilaritySearch (TrimSpace line) 5,
              .Println [.str "=====RESULTS======="]] ++
            results.map (fun result => .Println [.str "[search result with score]:",
              .any (mapIndex result.Metadata "source"),
              .float32 (fl.sub fl.one result.Score)]) ++
            [.Println [.str "============"]],
          outcome := .ret () }) ∧
    (∀ base64EncodedImage results,
      (QueryImage.imageToBase64String env (TrimSpace line)).outcome =
        .ret (base64EncodedImage, none) →
      env.SimilaritySearch base64EncodedImage 5 = .ok results →
      QueryImage.mainLoopBody fl env line =
        { trace :=
            [.Print [.str "\nEnter image source: "]] ++
            (QueryImage.imageToBase64String env (TrimSpace line)).trace ++
            [.SimilaritySearch base64EncodedImage 5, .Println [.str "=====RESULTS======="]] ++
            results.map (fun result => .Println [.str "[search result with score]:",
              .any (mapIndex result.Metadata "source"),
              .float32 (fl.sub fl.one result.Score)]) ++
            [.Println [.str "============"]],
          outcome := .ret () }) := by
  constructor
  · intro results hs
    simp only [QueryText.mainLoopBody, forRange_step, QueryText.numOfResults]
    simp only [bind_eq, Prog.bind, step, hs, List.cons_append, List.nil_append,
      List.append_assoc]
  · intro q results hq hs
    simp only [QueryImage.mainLoopBody, forRange_step, QueryImage.numOfResults]
    simp only [bind_eq, Prog.bind, step, hq, hs, List.cons_append, List.nil_append,
      List.append_assoc]

theorem query_prints_one_line_per_result_witness :
    QueryText.mainLoopBody intFloat32 sampleEnv "  a cat \n" =
      { trace :=
          [.Print [.str "\nEnter your message: "], .SimilaritySearch "a cat" 5,
            .Println [.str "=====RESULTS======="],
            .Println [.str "[search result with score]:",
              .any (some (.string "sample_images/a.jpg")), .float32 1],
            .Println [.str "[search result with score]:",
              .any (some (.string "sample_images/b.jpg")), .float32 0],
            .Println [.str "============"]],
        outcome := .ret () } ∧
    QueryImage.mainLoopBody intFloat32 emptyStoreEnv "sample_images/a.jpg\n" =
      { trace :=
          [.Print [.str "\nEnter image source: "], .ReadFile "sample_images/a.jpg",
            .SimilaritySearch "TWFu" 5, .Println [.str "=====RESULTS======="],
            .Println [.str "============"]],
        outcome := .ret () } :=
  ⟨(query_prints_one_line_per_result intFloat32 sampleEnv "  a cat \n").1 _ rfl,
    (query_prints_one_line_per_result intFloat32 emptyStoreEnv "sample_images/a.jpg\n").2
      "TWFu" [] rfl rfl⟩

end Query

end MultimodalSearch
